import Mathlib

/-!
# lidar_bev: `CloudFilter` (src/lidar_bev/cloud_filter.cpp)

A shallow embedding of the point filters, the height-map ground segmenter, the coarse
ground rasterizer and the bird's-eye-view rasterizer of `CloudFilter`, with the
properties the specification states about them.

Modelling conventions
* `float` / `double` values are rationals (`ℚ`): arithmetic is exact, there is no
  rounding, no infinity and no NaN.  The division by the integer `norm_factor`, which
  can be zero for a well-formed table, is guarded explicitly (`densityByte` returns
  `none`); the parameters `cell_size`, `max_height` and `max_expected_intensity_` are
  meant to be non-zero.
* `int` values are unbounded integers (`Int`).  The implicit conversion of a
  floating value to `int` is truncation toward zero (`toInt`).
* A conversion to `uchar` keeps the low eight bits (`toUchar`).
* The cloud `cloud_ptr_->points` is a `List PointXYZI`; `erase(remove_if(..))` is
  `List.filter` with the negated predicate (stable, in place).
* Two-dimensional arrays are functions of the two `int` indices; an access in the
  source that is behind a bounds test keeps that test, and the one read that is not
  (the upsample loop of `birdGround`) returns `none` outside the matrix.
* The median filter `medianBlur` of the image library is a parameter.
-/

namespace LidarBev

/-- The point type `pcl::PointXYZI`: coordinates and intensity. -/
structure PointXYZI where
  x : ℚ
  y : ℚ
  z : ℚ
  intensity : ℚ
  deriving DecidableEq

/-- Conversion of a floating value to `int`: the fractional part is discarded
(truncation toward zero). -/
def toInt (q : ℚ) : Int := if 0 ≤ q then ⌊q⌋ else ⌈q⌉

/-- Conversion of an integer to `uchar`: reduction modulo 256. -/
def toUchar (z : Int) : Nat := (z % 256).toNat

/-! ## PointFilter -/

/-- `CloudFilter::pointInCameraFov`.  `tx`, `ty` are `velo_cam_transform_.getOrigin().x()`
and `.y()`.  `absf` is the function the unqualified call `abs(p.y)` resolves to; its
declaration is in headers that are not part of the source file. -/
def pointInCameraFov (absf : ℚ → ℚ) (tx ty : ℚ) (p : PointXYZI) (horizontal_fov : ℚ) :
    Bool :=
  let px := p.x - tx
  let py := p.y - ty
  if px < 0 ∨ px > 100 then false
  else decide (absf py < (horizontal_fov / 90) * px)

/-- `CloudFilter::filterFOV`: erase the points for which `!pointInCameraFov` holds. -/
def filterFOV (absf : ℚ → ℚ) (tx ty : ℚ) (horizontal_fov : ℚ) (points : List PointXYZI) :
    List PointXYZI :=
  points.filter (fun p => !(!pointInCameraFov absf tx ty p horizontal_fov))

/-- `CloudFilter::filterIntensities`: erase the points with
`p.intensity > intensity_threshold`. -/
def filterIntensities (intensity_threshold : ℚ) (points : List PointXYZI) : List PointXYZI :=
  points.filter (fun p => !decide (p.intensity > intensity_threshold))

/-! ## GroundSegmenter -/

/-- The cell index of `removeFloor` and `filterGround` along one axis:
`int x = ((grid_dim / 2) + p.x / cell_size);` with `grid_dim / 2` an `int` division
and the sum converted to `int`. -/
def groundIndex (grid_dim : Int) (c cell_size : ℚ) : Int :=
  toInt (((Int.tdiv grid_dim 2 : Int) : ℚ) + c / cell_size)

/-- The test `x >= 0 && x < grid_dim && y >= 0 && y < grid_dim`. -/
def inGrid (grid_dim x y : Int) : Prop :=
  0 ≤ x ∧ x < grid_dim ∧ 0 ≤ y ∧ y < grid_dim

instance (grid_dim x y : Int) : Decidable (inGrid grid_dim x y) := by
  unfold inGrid; infer_instance

/-- Assignment `a[x][y] = v` on a two-dimensional array. -/
def set2 {α : Type} (a : Int → Int → α) (x y : Int) (v : α) : Int → Int → α :=
  fun i j => if i = x ∧ j = y then v else a i j

/-- The three local arrays `min`, `max`, `init` of `removeFloor`.  `init` holds the
visited flag (stored as 0 / 1 in the source, read as a condition). -/
structure HeightMap where
  min : Int → Int → ℚ
  max : Int → Int → ℚ
  init : Int → Int → Bool

/-- The arrays after `resize(grid_dim, std::vector<float>(grid_dim, 0))`. -/
def HeightMap.empty : HeightMap :=
  { min := fun _ _ => 0, max := fun _ _ => 0, init := fun _ _ => false }

/-- One iteration of the loop "build height map" of `removeFloor`. -/
def buildStep (grid_dim : Int) (cell_size : ℚ) (hm : HeightMap) (p : PointXYZI) : HeightMap :=
  let x := groundIndex grid_dim p.x cell_size
  let y := groundIndex grid_dim p.y cell_size
  if inGrid grid_dim x y then
    if !hm.init x y then
      { min := set2 hm.min x y p.z
        max := set2 hm.max x y p.z
        init := set2 hm.init x y true }
    else
      { min := set2 hm.min x y (Min.min (hm.min x y) p.z)
        max := set2 hm.max x y (Max.max (hm.max x y) p.z)
        init := hm.init }
  else hm

/-- The loop "build height map" of `removeFloor` over the whole cloud. -/
def buildHeightMap (grid_dim : Int) (cell_size : ℚ) (points : List PointXYZI) : HeightMap :=
  points.foldl (buildStep grid_dim cell_size) HeightMap.empty

/-- `CloudFilter::filterGround`.  The function returns a value only on the guarded
path; `none` is the path that reaches the end of the function without `return`. -/
def filterGround (p : PointXYZI) (grid_dim : Int) (hm : HeightMap)
    (height_threshold cell_size : ℚ) : Option Bool :=
  let x := groundIndex grid_dim p.x cell_size
  let y := groundIndex grid_dim p.y cell_size
  if inGrid grid_dim x y ∧ hm.init x y = true then
    some (decide (hm.max x y - hm.min x y < height_threshold))
  else none

/-- `CloudFilter::removeFloor`: build the height map, then erase the points for which
`filterGround` holds.  `fallthrough` is the value taken for a call of `filterGround`
that ends without `return`; the specification fixes it to `false` (keep the point). -/
def removeFloor (fallthrough : Bool) (cell_size height_threshold : ℚ) (grid_dim : Int)
    (points : List PointXYZI) : List PointXYZI :=
  let hm := buildHeightMap grid_dim cell_size points
  points.filter (fun p =>
    !((filterGround p grid_dim hm height_threshold cell_size).getD fallthrough))

/-! ## BirdViewRasterizer -/

/-- The cell index of `birdView` along one axis:
`int x = grid_cells/2 - point.x/cell_size;`. -/
def bevIndex (grid_cells : Int) (c cell_size : ℚ) : Int :=
  toInt (((Int.tdiv grid_cells 2 : Int) : ℚ) - c / cell_size)

/-- The three accumulator arrays `density`, `height`, `intensity` of `birdView`. -/
structure BevGrids where
  density : Int → Int → Int
  height : Int → Int → ℚ
  intensity : Int → Int → ℚ

/-- The accumulators after the loop "Init the grids". -/
def BevGrids.start : BevGrids :=
  { density := fun _ _ => 0, height := fun _ _ => -(99999 / 10), intensity := fun _ _ => 0 }

/-- One iteration of the loop "Fill the grids" of `birdView`.  `bz` is
`base_velo_transform_.getOrigin().z()`, `mei` is `max_expected_intensity_`. -/
def fillStep (cell_size max_height : ℚ) (grid_cells : Int) (bz mei : ℚ)
    (g : BevGrids) (point : PointXYZI) : BevGrids :=
  let z := point.z + bz
  if z < max_height then
    let x := bevIndex grid_cells point.x cell_size
    let y := bevIndex grid_cells point.y cell_size
    if inGrid grid_cells x y then
      { height := set2 g.height x y (Max.max (g.height x y) z)
        density := set2 g.density x y (g.density x y + 1)
        intensity := set2 g.intensity x y (g.intensity x y + point.intensity / mei) }
    else g
  else g

/-- The loop "Fill the grids" of `birdView` over the whole cloud. -/
def fillGrids (cell_size max_height : ℚ) (grid_cells : Int) (bz mei : ℚ)
    (points : List PointXYZI) : BevGrids :=
  points.foldl (fillStep cell_size max_height grid_cells bz mei) BevGrids.start

/-- The height byte of a cell: `height = std::max(height, 0)` and then
`(uchar)(255 * height / max_height)`. -/
def heightByte (max_height h : ℚ) : Nat :=
  toUchar (toInt (255 * Max.max h 0 / max_height))

/-- The density byte of a cell: `int norm_factor = max_points_map_[i][j];`,
`int points_cell_pixel = (float)density / norm_factor * 255;`,
`(uchar)std::min(points_cell_pixel, 255)`.  The result is `none` when the division is
by zero (the quotient is then no number that converts to `int`). -/
def densityByte (density : Int) (entry : ℚ) : Option Nat :=
  let norm_factor : Int := toInt entry
  if norm_factor = 0 then none
  else
    let points_cell_pixel : Int := toInt ((density : ℚ) / (norm_factor : ℚ) * 255)
    some (toUchar (Min.min points_cell_pixel 255))

/-- The intensity byte of a cell:
`norm_intensity = (density > 0) ? std::min(255.f, 255 * intensity / density) : 0` and
then `(uchar)norm_intensity`. -/
def intensityByte (density : Int) (intensity : ℚ) : Nat :=
  let norm_intensity : ℚ :=
    if density > 0 then Min.min 255 (255 * intensity / (density : ℚ)) else 0
  toUchar (toInt norm_intensity)

/-- The three bytes written for one cell of the raster, in channel order. -/
structure Pixel where
  height : Nat
  density : Option Nat
  intensity : Nat
  deriving DecidableEq

/-- The number of rows and columns of the raster: `int grid_cells = grid_dim / cell_size;`. -/
def gridCells (grid_dim cell_size : ℚ) : Int := toInt (grid_dim / cell_size)

/-- The pixel `birdView` writes for cell `(i, j)`.  `max_points_map` is the member
`max_points_map_`, the table loaded by `initMaxPointsMap`. -/
def birdViewCell (cell_size max_height grid_dim bz mei : ℚ) (max_points_map : Int → Int → ℚ)
    (points : List PointXYZI) (i j : Int) : Pixel :=
  let g := fillGrids cell_size max_height (gridCells grid_dim cell_size) bz mei points
  { height := heightByte max_height (g.height i j)
    density := densityByte (g.density i j) (max_points_map i j)
    intensity := intensityByte (g.density i j) (g.intensity i j) }

/-- `CloudFilter::birdView`: the raster, row by row. -/
def birdView (cell_size max_height grid_dim bz mei : ℚ) (max_points_map : Int → Int → ℚ)
    (points : List PointXYZI) : List (List Pixel) :=
  let n := (gridCells grid_dim cell_size).toNat
  (List.range n).map (fun (i : Nat) => (List.range n).map (fun (j : Nat) =>
    birdViewCell cell_size max_height grid_dim bz mei max_points_map points
      (i : Int) (j : Int)))

/-! ## GroundGridRasterizer -/

/-- The number of rows and columns of the coarse ground grid:
`int ground_cells = floor(grid_cells / ground_cell_span);`, an `int` division. -/
def groundCells (grid_cells ground_cell_span : Int) : Int :=
  Int.tdiv grid_cells ground_cell_span

/-- The coarse index of a fine index:
`int x_ground = (double)x/ground_cell_span -.5f;`, used by the fill pass and by the
upsample loop of `birdGround`. -/
def coarseIndex (x ground_cell_span : Int) : Int :=
  toInt ((x : ℚ) / (ground_cell_span : ℚ) - 1 / 2)

/-- One iteration of the loop "Fill the aux grid" of `birdGround`.  `bz` is
`base_velo_transform_.getOrigin().z()`. -/
def groundFillStep (bv_cell_size : ℚ) (ground_cell_span grid_cells ground_cells : Int)
    (bz : ℚ) (aux_ground : Int → Int → ℚ) (point : PointXYZI) : Int → Int → ℚ :=
  if point.z < -3 then aux_ground
  else
    let z := point.z + bz
    let x := bevIndex grid_cells point.x bv_cell_size
    let y := bevIndex grid_cells point.y bv_cell_size
    let x_ground := coarseIndex x ground_cell_span
    let y_ground := coarseIndex y ground_cell_span
    if inGrid ground_cells x_ground y_ground then
      set2 aux_ground x_ground y_ground (Min.min (aux_ground x_ground y_ground) z)
    else aux_ground

/-- The loop "Fill the aux grid" over the whole cloud, from the grid initialised to
`9999.9`. -/
def groundFill (bv_cell_size : ℚ) (ground_cell_span grid_cells ground_cells : Int)
    (bz : ℚ) (points : List PointXYZI) : Int → Int → ℚ :=
  points.foldl (groundFillStep bv_cell_size ground_cell_span grid_cells ground_cells bz)
    (fun _ _ => 99999 / 10)

/-- The test `fabs((i * ground_cell_span - grid_cells/2.) * bv_cell_size) < 5.` of the
blind-spot patch, for one axis. -/
def nearOrigin (ground_cell_span grid_cells : Int) (bv_cell_size : ℚ) (i : Int) : Prop :=
  |(((i * ground_cell_span : Int) : ℚ) - (grid_cells : ℚ) / 2) * bv_cell_size| < 5

instance (ground_cell_span grid_cells : Int) (bv_cell_size : ℚ) (i : Int) :
    Decidable (nearOrigin ground_cell_span grid_cells bv_cell_size i) := by
  unfold nearOrigin; infer_instance

/-- The cells `(i, j)` visited by `for i in [0, n)`, `for j in [0, n)`, in loop order. -/
def cellList (n : Int) : List (Int × Int) :=
  (List.range n.toNat).flatMap (fun (i : Nat) =>
    (List.range n.toNat).map (fun (j : Nat) => ((i : Int), (j : Int))))

/-- The body of the loop "Hack to fill points near and below the car" for the cell `c`:
`if (fabs(z) > 0.2 && ... < 5. && ... < 5.) aux_ground[i][j] = 0;`. -/
def patchStep (ground_cell_span grid_cells : Int) (bv_cell_size : ℚ)
    (aux_ground : Int → Int → ℚ) (c : Int × Int) : Int → Int → ℚ :=
  let z := aux_ground c.1 c.2
  if |z| > 1 / 5 ∧ nearOrigin ground_cell_span grid_cells bv_cell_size c.1 ∧
      nearOrigin ground_cell_span grid_cells bv_cell_size c.2 then
    set2 aux_ground c.1 c.2 0
  else aux_ground

/-- The blind-spot patch of `birdGround`: the loop over all coarse cells. -/
def patchBlindSpot (ground_cell_span grid_cells ground_cells : Int) (bv_cell_size : ℚ)
    (aux_ground : Int → Int → ℚ) : Int → Int → ℚ :=
  (cellList ground_cells).foldl (patchStep ground_cell_span grid_cells bv_cell_size)
    aux_ground

/-- The value `birdGround` writes for the fine cell `(i, j)`:
`median_ground->at<float>(x_ground, y_ground)` with the coarse indices of `i` and `j`.
`medianBlur` is the 3 x 3 median filter of the image library, a parameter of the
embedding.  The result is `none` when the coarse indices are not inside the
`ground_cells x ground_cells` matrix (the read is then outside the matrix). -/
def birdGroundCell (bv_cell_size : ℚ) (ground_cell_span : Int) (grid_dim bz : ℚ)
    (medianBlur : (Int → Int → ℚ) → Int → Int → ℚ) (points : List PointXYZI)
    (i j : Int) : Option ℚ :=
  let grid_cells := gridCells grid_dim bv_cell_size
  let ground_cells := groundCells grid_cells ground_cell_span
  let aux_ground := patchBlindSpot ground_cell_span grid_cells ground_cells bv_cell_size
    (groundFill bv_cell_size ground_cell_span grid_cells ground_cells bz points)
  let median_ground := medianBlur aux_ground
  let x_ground := coarseIndex i ground_cell_span
  let y_ground := coarseIndex j ground_cell_span
  if inGrid ground_cells x_ground y_ground then some (median_ground x_ground y_ground)
  else none

/-- `CloudFilter::birdGround`: the ground raster, row by row. -/
def birdGround (bv_cell_size : ℚ) (ground_cell_span : Int) (grid_dim bz : ℚ)
    (medianBlur : (Int → Int → ℚ) → Int → Int → ℚ) (points : List PointXYZI) :
    List (List (Option ℚ)) :=
  let n := (gridCells grid_dim bv_cell_size).toNat
  (List.range n).map (fun (i : Nat) => (List.range n).map (fun (j : Nat) =>
    birdGroundCell bv_cell_size ground_cell_span grid_dim bz medianBlur points
      (i : Int) (j : Int)))

/-! ## The specification's vocabulary -/

/-- The points of the cloud that `removeFloor` maps to cell `(x, y)`. -/
def groundCellPoints (grid_dim : Int) (cell_size : ℚ) (points : List PointXYZI)
    (x y : Int) : List PointXYZI :=
  points.filter (fun q =>
    decide (groundIndex grid_dim q.x cell_size = x ∧ groundIndex grid_dim q.y cell_size = y))

/-- The specification's ground rule for a point: its cell lies inside the grid, was
visited, and the spread between the greatest and the least `z` of the points of the
cloud in that cell is below the threshold. -/
def SpecGround (grid_dim : Int) (cell_size height_threshold : ℚ)
    (points : List PointXYZI) (p : PointXYZI) : Prop :=
  let x := groundIndex grid_dim p.x cell_size
  let y := groundIndex grid_dim p.y cell_size
  inGrid grid_dim x y ∧
  (∃ q, q ∈ groundCellPoints grid_dim cell_size points x y) ∧
  ∃ min_z max_z : ℚ,
    IsLeast {z | ∃ q ∈ groundCellPoints grid_dim cell_size points x y, q.z = z} min_z ∧
    IsGreatest {z | ∃ q ∈ groundCellPoints grid_dim cell_size points x y, q.z = z} max_z ∧
    max_z - min_z < height_threshold

/-- The counted points of cell `(i, j)`: the points with vehicle-frame elevation below
`max_height` that `birdView` bins into that cell. -/
def countedPoints (cell_size max_height : ℚ) (grid_cells : Int) (bz : ℚ)
    (points : List PointXYZI) (i j : Int) : List PointXYZI :=
  points.filter (fun q =>
    decide (q.z + bz < max_height ∧
      bevIndex grid_cells q.x cell_size = i ∧ bevIndex grid_cells q.y cell_size = j))

/-- The points that the fill pass of `birdGround` accumulates into the coarse cell
`(a, b)`: the points with `z ≥ -3` whose fine cell maps to `(a, b)`. -/
def groundCounted (bv_cell_size : ℚ) (ground_cell_span grid_cells : Int)
    (points : List PointXYZI) (a b : Int) : List PointXYZI :=
  points.filter (fun q =>
    decide (¬ q.z < -3 ∧
      coarseIndex (bevIndex grid_cells q.x bv_cell_size) ground_cell_span = a ∧
      coarseIndex (bevIndex grid_cells q.y bv_cell_size) ground_cell_span = b))

/-- The height map describes the points of `seen`: a cell is flagged exactly when it
lies inside the grid and some point of `seen` maps to it, and a flagged cell holds the
least and the greatest `z` of those points. -/
def HeightMapInv (grid_dim : Int) (cell_size : ℚ) (seen : List PointXYZI)
    (hm : HeightMap) : Prop :=
  ∀ x y : Int,
    (hm.init x y = true ↔
      inGrid grid_dim x y ∧ ∃ q, q ∈ groundCellPoints grid_dim cell_size seen x y) ∧
    (hm.init x y = true →
      IsLeast {z | ∃ q ∈ groundCellPoints grid_dim cell_size seen x y, q.z = z} (hm.min x y) ∧
      IsGreatest {z | ∃ q ∈ groundCellPoints grid_dim cell_size seen x y, q.z = z}
        (hm.max x y))

/-- The accumulators describe the points of `seen`: every cell of the grid holds the
number of its counted points, the sum of their normalized intensities, and the maximum
of the sentinel and their vehicle-frame elevations. -/
def BevInv (cell_size max_height : ℚ) (grid_cells : Int) (bz mei : ℚ)
    (seen : List PointXYZI) (g : BevGrids) : Prop :=
  ∀ i j : Int, inGrid grid_cells i j →
    g.density i j
      = ((countedPoints cell_size max_height grid_cells bz seen i j).length : Int) ∧
    g.intensity i j
      = ((countedPoints cell_size max_height grid_cells bz seen i j).map
          (fun q => q.intensity / mei)).sum ∧
    g.height i j
      = ((countedPoints cell_size max_height grid_cells bz seen i j).map
          (fun q => q.z + bz)).foldl Max.max (-(99999 / 10))

/-! ## Conversions -/

theorem toInt_of_nonneg {q : ℚ} (h : 0 ≤ q) : toInt q = ⌊q⌋ := by
  simp [toInt, h]

theorem toInt_of_neg {q : ℚ} (h : q < 0) : toInt q = ⌈q⌉ := by
  simp [toInt, not_le.mpr h]

theorem toInt_intCast (n : Int) : toInt (n : ℚ) = n := by
  unfold toInt
  split <;> simp

theorem toUchar_of_range {z : Int} (h0 : 0 ≤ z) (h1 : z < 256) : (toUchar z : Int) = z := by
  unfold toUchar
  rw [Int.toNat_of_nonneg (Int.emod_nonneg z (by norm_num)), Int.emod_eq_of_lt h0 h1]

/-! ## PointFilter: theorems -/

theorem pointInCameraFov_spec (absf : ℚ → ℚ) (habs : ∀ y, absf y = |y|)
    (tx ty : ℚ) (p : PointXYZI) (horizontal_fov : ℚ) :
    pointInCameraFov absf tx ty p horizontal_fov = true ↔
      0 ≤ p.x - tx ∧ p.x - tx ≤ 100 ∧ |p.y - ty| < (horizontal_fov / 90) * (p.x - tx) := by
  unfold pointInCameraFov
  simp only [habs]
  by_cases h : p.x - tx < 0 ∨ p.x - tx > 100
  · simp only [h, if_true]
    rcases h with h | h
    · constructor
      · intro hf; cases hf
      · rintro ⟨h0, _, _⟩; exact absurd h0 (not_le.mpr h)
    · constructor
      · intro hf; cases hf
      · rintro ⟨_, h1, _⟩; exact absurd h1 (not_le.mpr h)
  · simp only [h, if_false, decide_eq_true_eq]
    rw [not_or, not_lt, not_lt] at h
    exact ⟨fun hy => ⟨h.1, h.2, hy⟩, fun hy => hy.2.2⟩

/-- Remark on the `abs` parameter: were the call resolved to the integer function
`int abs(int)`, the argument would be truncated first, and the point `(3/10, 1/2)` would
be accepted although `|1/2| < 3/10` fails. -/
theorem pointInCameraFov_integer_abs :
    pointInCameraFov (fun v : ℚ => ((|toInt v| : Int) : ℚ)) 0 0 ⟨3 / 10, 1 / 2, 0, 0⟩ 90
      = true ∧
    ¬ (|(1 / 2 : ℚ)| < (90 / 90) * (3 / 10)) := by
  have h0 : toInt (1 / 2) = 0 := by norm_num [toInt, Int.floor_eq_iff]
  constructor
  · unfold pointInCameraFov
    simp only [sub_zero, h0]
    norm_num
  · rw [abs_of_nonneg (by norm_num)]
    norm_num

/-- C3: `filterFOV` keeps exactly the points accepted by `pointInCameraFov`, in their
original order; with `abs` the absolute value these are the points with translated
`x` in `[0, 100]` and `|y| < (fov / 90) * x`; nothing is added or duplicated, and a
cloud none of whose points is accepted becomes the empty cloud. -/
theorem filterFOV_eq_filter (absf : ℚ → ℚ) (habs : ∀ y, absf y = |y|)
    (tx ty horizontal_fov : ℚ) (points : List PointXYZI) :
    filterFOV absf tx ty horizontal_fov points
        = points.filter (fun p => pointInCameraFov absf tx ty p horizontal_fov) ∧
    filterFOV absf tx ty horizontal_fov points
        = points.filter (fun p => decide (0 ≤ p.x - tx ∧ p.x - tx ≤ 100 ∧
            |p.y - ty| < (horizontal_fov / 90) * (p.x - tx))) ∧
    (filterFOV absf tx ty horizontal_fov points).Sublist points ∧
    ((∀ p ∈ points, pointInCameraFov absf tx ty p horizontal_fov = false) →
      filterFOV absf tx ty horizontal_fov points = []) := by
  have h1 : filterFOV absf tx ty horizontal_fov points
      = points.filter (fun p => pointInCameraFov absf tx ty p horizontal_fov) := by
    unfold filterFOV
    congr 1
    funext p
    simp
  refine ⟨h1, ?_, ?_, ?_⟩
  · rw [h1]
    apply List.filter_congr
    intro p _
    have h := (pointInCameraFov_spec absf habs tx ty p horizontal_fov)
    by_cases hp : pointInCameraFov absf tx ty p horizontal_fov = true
    · rw [hp]; exact (decide_eq_true (h.1 hp)).symm
    · rw [Bool.not_eq_true] at hp
      rw [hp]
      symm
      apply decide_eq_false
      intro hs
      rw [h.2 hs] at hp
      cases hp
  · rw [h1]; exact List.filter_sublist _
  · intro hall
    rw [h1, List.filter_eq_nil_iff]
    intro p hp
    simp [hall p hp]

/-- Witness for C3: a three-point cloud, translation `(0, 0)`, fov 90. -/
theorem filterFOV_eq_filter_witness :
    (∀ y : ℚ, (fun v : ℚ => |v|) y = |y|) ∧
    (filterFOV (fun v : ℚ => |v|) 0 0 90 [⟨10, 5, 0, 0⟩, ⟨10, 11, 0, 0⟩, ⟨-1, 0, 0, 0⟩]
        = [(⟨10, 5, 0, 0⟩ : PointXYZI), ⟨10, 11, 0, 0⟩, ⟨-1, 0, 0, 0⟩].filter
            (fun p => pointInCameraFov (fun v : ℚ => |v|) 0 0 p 90) ∧
    filterFOV (fun v : ℚ => |v|) 0 0 90 [⟨10, 5, 0, 0⟩, ⟨10, 11, 0, 0⟩, ⟨-1, 0, 0, 0⟩]
        = [(⟨10, 5, 0, 0⟩ : PointXYZI), ⟨10, 11, 0, 0⟩, ⟨-1, 0, 0, 0⟩].filter
            (fun p => decide (0 ≤ p.x - 0 ∧ p.x - 0 ≤ 100 ∧
              |p.y - 0| < (90 / 90) * (p.x - 0))) ∧
    (filterFOV (fun v : ℚ => |v|) 0 0 90
      [⟨10, 5, 0, 0⟩, ⟨10, 11, 0, 0⟩, ⟨-1, 0, 0, 0⟩]).Sublist
        [⟨10, 5, 0, 0⟩, ⟨10, 11, 0, 0⟩, ⟨-1, 0, 0, 0⟩] ∧
    ((∀ p ∈ [(⟨10, 5, 0, 0⟩ : PointXYZI), ⟨10, 11, 0, 0⟩, ⟨-1, 0, 0, 0⟩],
        pointInCameraFov (fun v : ℚ => |v|) 0 0 p 90 = false) →
      filterFOV (fun v : ℚ => |v|) 0 0 90
        [⟨10, 5, 0, 0⟩, ⟨10, 11, 0, 0⟩, ⟨-1, 0, 0, 0⟩] = [])) :=
  ⟨fun _ => rfl, filterFOV_eq_filter (fun v : ℚ => |v|) (fun _ => rfl) 0 0 90
    [⟨10, 5, 0, 0⟩, ⟨10, 11, 0, 0⟩, ⟨-1, 0, 0, 0⟩]⟩

/-- C4: `filterIntensities` keeps exactly the points with intensity at most the
threshold, in their original order; a point whose intensity equals the threshold is
kept, a point whose intensity is above it is removed. -/
theorem filterIntensities_eq_filter (intensity_threshold : ℚ) (points : List PointXYZI) :
    filterIntensities intensity_threshold points
        = points.filter (fun p => decide (p.intensity ≤ intensity_threshold)) ∧
    (∀ p ∈ points, p.intensity = intensity_threshold →
      p ∈ filterIntensities intensity_threshold points) ∧
    (∀ p, p ∈ filterIntensities intensity_threshold points ↔
      p ∈ points ∧ ¬ intensity_threshold < p.intensity) := by
  refine ⟨?_, ?_, ?_⟩
  · unfold filterIntensities
    apply List.filter_congr
    intro p _
    by_cases h : p.intensity ≤ intensity_threshold
    · simp [h, not_lt.mpr h]
    · simp [h, not_le.mp h]
  · intro p hp he
    simp [filterIntensities, hp, he]
  · intro p
    simp [filterIntensities]

/-! ## GroundSegmenter: theorems -/

theorem mem_groundCellPoints_snoc (grid_dim : Int) (cell_size : ℚ)
    (seen : List PointXYZI) (p q : PointXYZI) (x y : Int) :
    q ∈ groundCellPoints grid_dim cell_size (seen ++ [p]) x y ↔
      q ∈ groundCellPoints grid_dim cell_size seen x y ∨
        (q = p ∧ x = groundIndex grid_dim p.x cell_size ∧
          y = groundIndex grid_dim p.y cell_size) := by
  simp only [groundCellPoints, List.mem_filter, List.mem_append, List.mem_singleton,
    decide_eq_true_eq]
  constructor
  · rintro ⟨hq | hq, hc⟩
    · exact Or.inl ⟨hq, hc⟩
    · subst hq; exact Or.inr ⟨rfl, hc.1.symm, hc.2.symm⟩
  · rintro (⟨hq, hc⟩ | ⟨rfl, hx, hy⟩)
    · exact ⟨Or.inl hq, hc⟩
    · exact ⟨Or.inr rfl, hx.symm, hy.symm⟩

theorem heightMapInv_empty (grid_dim : Int) (cell_size : ℚ) :
    HeightMapInv grid_dim cell_size [] HeightMap.empty := by
  intro x y
  simp [HeightMap.empty, groundCellPoints]

theorem heightMapInv_step (grid_dim : Int) (cell_size : ℚ) (seen : List PointXYZI)
    (hm : HeightMap) (p : PointXYZI) (h : HeightMapInv grid_dim cell_size seen hm) :
    HeightMapInv grid_dim cell_size (seen ++ [p]) (buildStep grid_dim cell_size hm p) := by
  intro x y
  obtain ⟨hiff, hext⟩ := h x y
  have hmem := fun q => mem_groundCellPoints_snoc grid_dim cell_size seen p q x y
  by_cases hcell : x = groundIndex grid_dim p.x cell_size ∧
      y = groundIndex grid_dim p.y cell_size
  · have hp : p ∈ groundCellPoints grid_dim cell_size (seen ++ [p]) x y :=
      (hmem p).2 (Or.inr ⟨rfl, hcell⟩)
    obtain ⟨hx, hy⟩ := hcell
    by_cases hin : inGrid grid_dim x y
    · by_cases hi : hm.init x y = true
      · have hstep : buildStep grid_dim cell_size hm p =
            { min := set2 hm.min x y (Min.min (hm.min x y) p.z)
              max := set2 hm.max x y (Max.max (hm.max x y) p.z)
              init := hm.init } := by
          simp [buildStep, ← hx, ← hy, hin, hi]
        rw [hstep]
        obtain ⟨hl, hg⟩ := hext hi
        refine ⟨?_, fun _ => ⟨?_, ?_⟩⟩
        · simp only [hi, true_iff]
          exact ⟨hin, p, hp⟩
        · simp only [set2, and_self, if_true]
          constructor
          · rcases min_choice (hm.min x y) p.z with hm1 | hm1
            · rw [hm1]
              obtain ⟨q, hq, hqz⟩ := hl.1
              exact ⟨q, (hmem q).2 (Or.inl hq), hqz⟩
            · rw [hm1]
              exact ⟨p, hp, rfl⟩
          · rintro z ⟨q, hq, rfl⟩
            rcases (hmem q).1 hq with hq | ⟨rfl, _⟩
            · exact le_trans (min_le_left _ _) (hl.2 ⟨q, hq, rfl⟩)
            · exact min_le_right _ _
        · simp only [set2, and_self, if_true]
          constructor
          · rcases max_choice (hm.max x y) p.z with hm1 | hm1
            · rw [hm1]
              obtain ⟨q, hq, hqz⟩ := hg.1
              exact ⟨q, (hmem q).2 (Or.inl hq), hqz⟩
            · rw [hm1]
              exact ⟨p, hp, rfl⟩
          · rintro z ⟨q, hq, rfl⟩
            rcases (hmem q).1 hq with hq | ⟨rfl, _⟩
            · exact le_trans (hg.2 ⟨q, hq, rfl⟩) (le_max_left _ _)
            · exact le_max_right _ _
      · have hstep : buildStep grid_dim cell_size hm p =
            { min := set2 hm.min x y p.z
              max := set2 hm.max x y p.z
              init := set2 hm.init x y true } := by
          simp [buildStep, ← hx, ← hy, hin, hi]
        rw [hstep]
        have hnone : ∀ q, q ∉ groundCellPoints grid_dim cell_size seen x y :=
          fun q hq => hi (hiff.2 ⟨hin, q, hq⟩)
        have hzs : ∀ z, (∃ q ∈ groundCellPoints grid_dim cell_size (seen ++ [p]) x y,
            q.z = z) → z = p.z := by
          rintro z ⟨q, hq, rfl⟩
          rcases (hmem q).1 hq with hq | ⟨rfl, _⟩
          · exact absurd hq (hnone q)
          · rfl
        refine ⟨?_, fun _ => ⟨?_, ?_⟩⟩
        · simp only [set2, and_self, if_true, true_iff]
          exact ⟨hin, p, hp⟩
        · simp only [set2, and_self, if_true]
          exact ⟨⟨p, hp, rfl⟩, fun z hz => le_of_eq (hzs z hz).symm⟩
        · simp only [set2, and_self, if_true]
          exact ⟨⟨p, hp, rfl⟩, fun z hz => le_of_eq (hzs z hz)⟩
    · have hstep : buildStep grid_dim cell_size hm p = hm := by
        simp [buildStep, ← hx, ← hy, hin]
      rw [hstep]
      have hni : ¬ hm.init x y = true := fun hi => hin (hiff.1 hi).1
      refine ⟨⟨fun hi => absurd hi hni, fun hh => absurd hh.1 hin⟩, fun hi => absurd hi hni⟩
  · have hmem2 : ∀ q, q ∈ groundCellPoints grid_dim cell_size (seen ++ [p]) x y ↔
        q ∈ groundCellPoints grid_dim cell_size seen x y := by
      intro q
      rw [hmem q]
      constructor
      · rintro (hq | ⟨_, hc⟩)
        · exact hq
        · exact absurd hc hcell
      · exact Or.inl
    have hsame : (buildStep grid_dim cell_size hm p).init x y = hm.init x y ∧
        (buildStep grid_dim cell_size hm p).min x y = hm.min x y ∧
        (buildStep grid_dim cell_size hm p).max x y = hm.max x y := by
      unfold buildStep
      simp only []
      split_ifs <;> simp [set2, hcell]
    rw [hsame.1, hsame.2.1, hsame.2.2]
    simp only [hmem2]
    exact ⟨hiff, hext⟩

theorem heightMapInv_foldl (grid_dim : Int) (cell_size : ℚ) :
    ∀ (rest seen : List PointXYZI) (hm : HeightMap),
      HeightMapInv grid_dim cell_size seen hm →
      HeightMapInv grid_dim cell_size (seen ++ rest)
        (rest.foldl (buildStep grid_dim cell_size) hm)
  | [], seen, hm, h => by simpa using h
  | p :: rest, seen, hm, h => by
    have ih := heightMapInv_foldl grid_dim cell_size rest (seen ++ [p]) _
      (heightMapInv_step grid_dim cell_size seen hm p h)
    simpa [List.append_assoc] using ih

theorem heightMapInv_build (grid_dim : Int) (cell_size : ℚ) (points : List PointXYZI) :
    HeightMapInv grid_dim cell_size points (buildHeightMap grid_dim cell_size points) := by
  have h := heightMapInv_foldl grid_dim cell_size points [] _
    (heightMapInv_empty grid_dim cell_size)
  simpa [buildHeightMap] using h

theorem filterGround_iff_specGround (grid_dim : Int) (cell_size height_threshold : ℚ)
    (points : List PointXYZI) (p : PointXYZI) :
    (filterGround p grid_dim (buildHeightMap grid_dim cell_size points)
        height_threshold cell_size).getD false = true ↔
      SpecGround grid_dim cell_size height_threshold points p := by
  obtain ⟨hiff, hext⟩ := heightMapInv_build grid_dim cell_size points
    (groundIndex grid_dim p.x cell_size) (groundIndex grid_dim p.y cell_size)
  unfold filterGround SpecGround
  simp only []
  by_cases hc : inGrid grid_dim (groundIndex grid_dim p.x cell_size)
      (groundIndex grid_dim p.y cell_size) ∧
      (buildHeightMap grid_dim cell_size points).init (groundIndex grid_dim p.x cell_size)
        (groundIndex grid_dim p.y cell_size) = true
  · rw [if_pos hc]
    simp only [Option.getD_some, decide_eq_true_eq]
    obtain ⟨hl, hg⟩ := hext hc.2
    constructor
    · intro hlt
      exact ⟨hc.1, (hiff.1 hc.2).2, _, _, hl, hg, hlt⟩
    · rintro ⟨_, _, mn, mx, hl2, hg2, hlt⟩
      rw [hl.unique hl2, hg.unique hg2]
      exact hlt
  · rw [if_neg hc]
    simp only [Option.getD_none]
    constructor
    · intro hf; cases hf
    · rintro ⟨hin, hq, _⟩
      exact absurd ⟨hin, hiff.2 ⟨hin, hq⟩⟩ hc

/-- C1: with the keep default for the path of `filterGround` that returns nothing, and
for `cell_size > 0`, `grid_dim > 0`, `removeFloor` is the order-preserving filter of the
cloud that removes a point exactly when its cell lies inside the grid, was visited and
has `max_z - min_z < height_threshold`, `max_z` and `min_z` being the greatest and least
`z` over the points of the input cloud in that cell; every other point (in particular
every point whose cell is out of bounds) is retained. -/
theorem removeFloor_classification (cell_size height_threshold : ℚ) (grid_dim : Int)
    (_hcs : 0 < cell_size) (_hgd : 0 < grid_dim) (points : List PointXYZI) :
    (∃ keep : PointXYZI → Bool,
      removeFloor false cell_size height_threshold grid_dim points = points.filter keep ∧
      ∀ p, keep p = false ↔ SpecGround grid_dim cell_size height_threshold points p) ∧
    (∀ p ∈ points,
      (p ∉ removeFloor false cell_size height_threshold grid_dim points ↔
        SpecGround grid_dim cell_size height_threshold points p)) ∧
    (∀ p ∈ points,
      ¬ inGrid grid_dim (groundIndex grid_dim p.x cell_size)
          (groundIndex grid_dim p.y cell_size) →
      p ∈ removeFloor false cell_size height_threshold grid_dim points) := by
  have hkey := filterGround_iff_specGround grid_dim cell_size height_threshold points
  have hmem : ∀ p ∈ points,
      (p ∉ removeFloor false cell_size height_threshold grid_dim points ↔
        SpecGround grid_dim cell_size height_threshold points p) := by
    intro p hp
    rw [← hkey p]
    simp [removeFloor, hp]
  refine ⟨⟨fun p => !((filterGround p grid_dim (buildHeightMap grid_dim cell_size points)
      height_threshold cell_size).getD false), rfl, ?_⟩, hmem, ?_⟩
  · intro p
    rw [← hkey p]
    simp
  · intro p hp hout
    by_contra hrem
    exact hout ((hmem p hp).1 hrem).1

/-- Witness for C1: the classification rule at a two-point cloud. -/
theorem removeFloor_classification_witness :
    (0 : ℚ) < 1 ∧ (0 : Int) < 4 ∧
    ((∃ keep : PointXYZI → Bool,
      removeFloor false 1 (1 / 5) 4 [⟨0, 0, 0, 1⟩, ⟨9, 0, 0, 1⟩]
        = [⟨0, 0, 0, 1⟩, ⟨9, 0, 0, 1⟩].filter keep ∧
      ∀ p, keep p = false ↔ SpecGround 4 1 (1 / 5) [⟨0, 0, 0, 1⟩, ⟨9, 0, 0, 1⟩] p) ∧
    (∀ p ∈ [(⟨0, 0, 0, 1⟩ : PointXYZI), ⟨9, 0, 0, 1⟩],
      (p ∉ removeFloor false 1 (1 / 5) 4 [⟨0, 0, 0, 1⟩, ⟨9, 0, 0, 1⟩] ↔
        SpecGround 4 1 (1 / 5) [⟨0, 0, 0, 1⟩, ⟨9, 0, 0, 1⟩] p)) ∧
    (∀ p ∈ [(⟨0, 0, 0, 1⟩ : PointXYZI), ⟨9, 0, 0, 1⟩],
      ¬ inGrid 4 (groundIndex 4 p.x 1) (groundIndex 4 p.y 1) →
      p ∈ removeFloor false 1 (1 / 5) 4 [⟨0, 0, 0, 1⟩, ⟨9, 0, 0, 1⟩])) :=
  ⟨by norm_num, by norm_num,
    removeFloor_classification 1 (1 / 5) 4 (by norm_num) (by norm_num)
      [⟨0, 0, 0, 1⟩, ⟨9, 0, 0, 1⟩]⟩

theorem filterGround_flat (grid_dim : Int) (cell_size height_threshold z0 : ℚ)
    (hthr : 0 < height_threshold) (points : List PointXYZI)
    (hz : ∀ p ∈ points, p.z = z0) (p : PointXYZI) (hp : p ∈ points)
    (hin : inGrid grid_dim (groundIndex grid_dim p.x cell_size)
      (groundIndex grid_dim p.y cell_size)) :
    filterGround p grid_dim (buildHeightMap grid_dim cell_size points)
      height_threshold cell_size = some true := by
  obtain ⟨hiff, hext⟩ := heightMapInv_build grid_dim cell_size points
    (groundIndex grid_dim p.x cell_size) (groundIndex grid_dim p.y cell_size)
  have hpc : p ∈ groundCellPoints grid_dim cell_size points
      (groundIndex grid_dim p.x cell_size) (groundIndex grid_dim p.y cell_size) := by
    simp [groundCellPoints, hp]
  have hi := hiff.2 ⟨hin, p, hpc⟩
  obtain ⟨hl, hg⟩ := hext hi
  have hzs : ∀ z, (∃ q ∈ groundCellPoints grid_dim cell_size points
      (groundIndex grid_dim p.x cell_size) (groundIndex grid_dim p.y cell_size),
      q.z = z) → z = z0 := by
    rintro z ⟨q, hq, rfl⟩
    exact hz q (List.mem_of_mem_filter hq)
  have hmin := hzs _ hl.1
  have hmax := hzs _ hg.1
  unfold filterGround
  simp only []
  rw [if_pos ⟨hin, hi⟩, hmin, hmax]
  simp [hthr]

/-- C9 (counterexample): a one-point cloud (constant `z`) at `x = 1000` with
`cell_size = 1`, `grid_dim = 2`, `height_threshold = 1`: the point maps to cell index
1001, outside the grid, and `removeFloor` with the keep default returns the cloud
unchanged, not the empty cloud. -/
theorem removeFloor_flat_counterexample :
    (∀ p ∈ [(⟨1000, 0, 0, 0⟩ : PointXYZI)], p.z = 0) ∧
    (0 : ℚ) < 1 ∧ (0 : Int) < 2 ∧
    removeFloor false 1 1 2 [⟨1000, 0, 0, 0⟩] = [⟨1000, 0, 0, 0⟩] ∧
    removeFloor false 1 1 2 [⟨1000, 0, 0, 0⟩] ≠ [] := by
  have h : groundIndex 2 1000 1 = 1001 := by simp [groundIndex, toInt]
  have h2 : removeFloor false 1 1 2 [⟨1000, 0, 0, 0⟩] = [⟨1000, 0, 0, 0⟩] := by
    simp [removeFloor, filterGround, h, inGrid]
  refine ⟨by simp, by norm_num, by norm_num, h2, ?_⟩
  rw [h2]
  exact List.cons_ne_nil _ _

/-- C9 (amended): for a cloud whose points all have the same `z` and all map to cells
inside the grid, `cell_size > 0`, `grid_dim > 0` and `height_threshold > 0`,
`removeFloor` returns the empty cloud (whatever the value taken on the path of
`filterGround` that returns nothing); with the keep default the points of a constant-`z`
cloud that survive are exactly those whose cell is out of bounds. -/
theorem removeFloor_flat_in_grid (fallthrough : Bool) (cell_size height_threshold : ℚ)
    (grid_dim : Int) (_hcs : 0 < cell_size) (_hgd : 0 < grid_dim)
    (hthr : 0 < height_threshold) (points : List PointXYZI) (z0 : ℚ)
    (hz : ∀ p ∈ points, p.z = z0) :
    ((∀ p ∈ points, inGrid grid_dim (groundIndex grid_dim p.x cell_size)
        (groundIndex grid_dim p.y cell_size)) →
      removeFloor fallthrough cell_size height_threshold grid_dim points = []) ∧
    removeFloor false cell_size height_threshold grid_dim points
      = points.filter (fun p => !decide (inGrid grid_dim
          (groundIndex grid_dim p.x cell_size) (groundIndex grid_dim p.y cell_size))) := by
  constructor
  · intro hin
    unfold removeFloor
    simp only []
    rw [List.filter_eq_nil_iff]
    intro p hp
    rw [filterGround_flat grid_dim cell_size height_threshold z0 hthr points hz p hp
      (hin p hp)]
    simp
  · unfold removeFloor
    simp only []
    apply List.filter_congr
    intro p hp
    by_cases hin : inGrid grid_dim (groundIndex grid_dim p.x cell_size)
        (groundIndex grid_dim p.y cell_size)
    · rw [filterGround_flat grid_dim cell_size height_threshold z0 hthr points hz p hp hin]
      simp [hin]
    · have hn : filterGround p grid_dim (buildHeightMap grid_dim cell_size points)
          height_threshold cell_size = none := by
        unfold filterGround
        simp only []
        rw [if_neg (fun hc => hin hc.1)]
      rw [hn]
      simp [hin]

/-- Witness for C9 (amended): a flat two-point cloud inside a 4 x 4 grid. -/
theorem removeFloor_flat_in_grid_witness :
    (0 : ℚ) < 1 ∧ (0 : Int) < 4 ∧ (0 : ℚ) < 1 / 5 ∧
    (∀ p ∈ [(⟨0, 0, 3, 1⟩ : PointXYZI), ⟨1, -1, 3, 1⟩], p.z = 3) ∧
    (((∀ p ∈ [(⟨0, 0, 3, 1⟩ : PointXYZI), ⟨1, -1, 3, 1⟩],
        inGrid 4 (groundIndex 4 p.x 1) (groundIndex 4 p.y 1)) →
      removeFloor false 1 (1 / 5) 4 [⟨0, 0, 3, 1⟩, ⟨1, -1, 3, 1⟩] = []) ∧
    removeFloor false 1 (1 / 5) 4 [⟨0, 0, 3, 1⟩, ⟨1, -1, 3, 1⟩]
      = [(⟨0, 0, 3, 1⟩ : PointXYZI), ⟨1, -1, 3, 1⟩].filter (fun p => !decide (inGrid 4
          (groundIndex 4 p.x 1) (groundIndex 4 p.y 1)))) :=
  ⟨by norm_num, by norm_num, by norm_num, by simp,
    removeFloor_flat_in_grid false 1 (1 / 5) 4 (by norm_num) (by norm_num) (by norm_num)
      [⟨0, 0, 3, 1⟩, ⟨1, -1, 3, 1⟩] 3 (by simp)⟩

theorem buildStep_out_of_grid (grid_dim : Int) (cell_size : ℚ) (hm : HeightMap)
    (p : PointXYZI)
    (hout : ¬ inGrid grid_dim (groundIndex grid_dim p.x cell_size)
      (groundIndex grid_dim p.y cell_size)) :
    buildStep grid_dim cell_size hm p = hm := by
  unfold buildStep
  simp only []
  rw [if_neg hout]

theorem buildHeightMap_drop (grid_dim : Int) (cell_size : ℚ) (p : PointXYZI)
    (hout : ¬ inGrid grid_dim (groundIndex grid_dim p.x cell_size)
      (groundIndex grid_dim p.y cell_size)) (l₁ l₂ : List PointXYZI) :
    buildHeightMap grid_dim cell_size (l₁ ++ p :: l₂)
      = buildHeightMap grid_dim cell_size (l₁ ++ l₂) := by
  unfold buildHeightMap
  rw [List.foldl_append, List.foldl_append, List.foldl_cons,
    buildStep_out_of_grid grid_dim cell_size _ p hout]

theorem groundIndex_of_nonneg (grid_dim : Int) (c cell_size : ℚ) (hgd : 0 < grid_dim)
    (h : 0 ≤ ((grid_dim / 2 : Int) : ℚ) + c / cell_size) :
    groundIndex grid_dim c cell_size = ⌊((grid_dim / 2 : Int) : ℚ) + c / cell_size⌋ := by
  unfold groundIndex
  rw [Int.tdiv_eq_ediv (le_of_lt hgd) (by norm_num)]
  exact toInt_of_nonneg h

theorem groundIndex_neg (grid_dim : Int) (c cell_size : ℚ) (hgd : 0 < grid_dim)
    (h : ((grid_dim / 2 : Int) : ℚ) + c / cell_size ≤ -1) :
    groundIndex grid_dim c cell_size < 0 := by
  unfold groundIndex
  rw [Int.tdiv_eq_ediv (le_of_lt hgd) (by norm_num),
    toInt_of_neg (lt_of_le_of_lt h (by norm_num))]
  have h1 : ⌈((grid_dim / 2 : Int) : ℚ) + c / cell_size⌉ ≤ -1 := by
    rw [Int.ceil_le]
    exact_mod_cast h
  omega

theorem groundIndex_large (grid_dim : Int) (c cell_size : ℚ) (hgd : 0 < grid_dim)
    (h : (grid_dim : ℚ) ≤ ((grid_dim / 2 : Int) : ℚ) + c / cell_size) :
    grid_dim ≤ groundIndex grid_dim c cell_size := by
  have h0 : (0 : ℚ) ≤ ((grid_dim / 2 : Int) : ℚ) + c / cell_size :=
    le_trans (by exact_mod_cast le_of_lt hgd) h
  rw [groundIndex_of_nonneg grid_dim c cell_size hgd h0, Int.le_floor]
  exact h

/-- C10 (counterexample): with `grid_dim = 2`, `cell_size = 1` the coordinate `-3/2`
gives `grid_dim/2 + coordinate/cell_size = -1/2`, whose floor is `-1`, yet the index
used is `0` and the point sets the visited flag of cell `(0, 1)`; with `grid_dim = 3`
the coordinate `3/5` gives floor `2` for `3/2 + 3/5` while the index used is `1`. -/
theorem groundIndex_floor_counterexample :
    ((-1 : ℚ) < (2 : ℚ) / 2 + (-3 / 2) / 1 ∧ (2 : ℚ) / 2 + (-3 / 2) / 1 < 0) ∧
    ⌊(2 : ℚ) / 2 + (-3 / 2) / 1⌋ = -1 ∧
    groundIndex 2 (-3 / 2) 1 = 0 ∧
    (buildHeightMap 2 1 []).init 0 1 = false ∧
    (buildHeightMap 2 1 [⟨-3 / 2, 0, 5, 0⟩]).init 0 1 = true ∧
    ⌊(3 : ℚ) / 2 + (3 / 5) / 1⌋ = 2 ∧
    groundIndex 3 (3 / 5) 1 = 1 := by
  have h : groundIndex 2 (-3 / 2) 1 = 0 := by norm_num [groundIndex, toInt]
  have h2 : groundIndex 2 0 1 = 1 := by norm_num [groundIndex, toInt]
  have h3 : Int.tdiv 3 2 = 1 := rfl
  refine ⟨by norm_num, ?_, h, ?_, ?_, ?_, ?_⟩
  · rw [Int.floor_eq_iff]; norm_num
  · simp [buildHeightMap, HeightMap.empty]
  · simp [buildHeightMap, buildStep, h, h2, inGrid, HeightMap.empty, set2]
  · rw [Int.floor_eq_iff]; norm_num
  · norm_num [groundIndex, toInt, h3, Int.floor_eq_iff]

/-- C10 (amended): for `cell_size > 0` and `grid_dim > 0`, writing
`s = grid_dim / 2 + coordinate / cell_size` with `grid_dim / 2` the integer quotient,
the cell index `removeFloor` uses along an axis equals `floor s` whenever `s ≥ 0`; a
point with `s ≤ -1` or `s ≥ grid_dim` on either axis has its index outside
`[0, grid_dim)`; and every point whose index is outside `[0, grid_dim)` on either axis
is dropped from the height statistics: it changes no cell's min, max or visited flag. -/
theorem groundIndex_floor_and_drop (grid_dim : Int) (cell_size : ℚ)
    (_hcs : 0 < cell_size) (hgd : 0 < grid_dim) :
    (∀ c : ℚ, 0 ≤ ((grid_dim / 2 : Int) : ℚ) + c / cell_size →
      groundIndex grid_dim c cell_size = ⌊((grid_dim / 2 : Int) : ℚ) + c / cell_size⌋) ∧
    (∀ p : PointXYZI,
      (((grid_dim / 2 : Int) : ℚ) + p.x / cell_size ≤ -1 ∨
        (grid_dim : ℚ) ≤ ((grid_dim / 2 : Int) : ℚ) + p.x / cell_size ∨
        ((grid_dim / 2 : Int) : ℚ) + p.y / cell_size ≤ -1 ∨
        (grid_dim : ℚ) ≤ ((grid_dim / 2 : Int) : ℚ) + p.y / cell_size) →
      ¬ inGrid grid_dim (groundIndex grid_dim p.x cell_size)
          (groundIndex grid_dim p.y cell_size)) ∧
    (∀ p : PointXYZI,
      ¬ inGrid grid_dim (groundIndex grid_dim p.x cell_size)
          (groundIndex grid_dim p.y cell_size) →
      (∀ hm : HeightMap, buildStep grid_dim cell_size hm p = hm) ∧
      ∀ l₁ l₂ : List PointXYZI,
        buildHeightMap grid_dim cell_size (l₁ ++ p :: l₂)
          = buildHeightMap grid_dim cell_size (l₁ ++ l₂)) := by
  refine ⟨fun c h => groundIndex_of_nonneg grid_dim c cell_size hgd h, ?_, ?_⟩
  · rintro p (h | h | h | h) ⟨h0, h1, h2, h3⟩
    · exact absurd h0 (not_le.mpr (groundIndex_neg grid_dim p.x cell_size hgd h))
    · exact absurd h1 (not_lt.mpr (groundIndex_large grid_dim p.x cell_size hgd h))
    · exact absurd h2 (not_le.mpr (groundIndex_neg grid_dim p.y cell_size hgd h))
    · exact absurd h3 (not_lt.mpr (groundIndex_large grid_dim p.y cell_size hgd h))
  · intro p hout
    exact ⟨fun hm => buildStep_out_of_grid grid_dim cell_size hm p hout,
      buildHeightMap_drop grid_dim cell_size p hout⟩

/-- Witness for C10 (amended): a 4 x 4 grid with unit cells. -/
theorem groundIndex_floor_and_drop_witness :
    (0 : ℚ) < 1 ∧ (0 : Int) < 4 ∧
    ((∀ c : ℚ, 0 ≤ (((4 : Int) / 2 : Int) : ℚ) + c / 1 →
      groundIndex 4 c 1 = ⌊(((4 : Int) / 2 : Int) : ℚ) + c / 1⌋) ∧
    (∀ p : PointXYZI,
      ((((4 : Int) / 2 : Int) : ℚ) + p.x / 1 ≤ -1 ∨
        ((4 : Int) : ℚ) ≤ (((4 : Int) / 2 : Int) : ℚ) + p.x / 1 ∨
        (((4 : Int) / 2 : Int) : ℚ) + p.y / 1 ≤ -1 ∨
        ((4 : Int) : ℚ) ≤ (((4 : Int) / 2 : Int) : ℚ) + p.y / 1) →
      ¬ inGrid 4 (groundIndex 4 p.x 1) (groundIndex 4 p.y 1)) ∧
    (∀ p : PointXYZI,
      ¬ inGrid 4 (groundIndex 4 p.x 1) (groundIndex 4 p.y 1) →
      (∀ hm : HeightMap, buildStep 4 1 hm p = hm) ∧
      ∀ l₁ l₂ : List PointXYZI,
        buildHeightMap 4 1 (l₁ ++ p :: l₂) = buildHeightMap 4 1 (l₁ ++ l₂))) :=
  ⟨by norm_num, by norm_num, groundIndex_floor_and_drop 4 1 (by norm_num) (by norm_num)⟩

/-! ## BirdViewRasterizer: theorems -/

theorem countedPoints_snoc (cell_size max_height : ℚ) (grid_cells : Int) (bz : ℚ)
    (seen : List PointXYZI) (p : PointXYZI) (i j : Int) :
    countedPoints cell_size max_height grid_cells bz (seen ++ [p]) i j
      = countedPoints cell_size max_height grid_cells bz seen i j ++
        (if p.z + bz < max_height ∧ bevIndex grid_cells p.x cell_size = i ∧
            bevIndex grid_cells p.y cell_size = j then [p] else []) := by
  unfold countedPoints
  rw [List.filter_append]
  congr 1
  by_cases h : p.z + bz < max_height ∧ bevIndex grid_cells p.x cell_size = i ∧
      bevIndex grid_cells p.y cell_size = j
  · simp [List.filter, h]
  · simp [List.filter, h]

theorem bevInv_start (cell_size max_height : ℚ) (grid_cells : Int) (bz mei : ℚ) :
    BevInv cell_size max_height grid_cells bz mei [] BevGrids.start := by
  intro i j _
  simp [BevGrids.start, countedPoints]

theorem bevInv_step (cell_size max_height : ℚ) (grid_cells : Int) (bz mei : ℚ)
    (seen : List PointXYZI) (g : BevGrids) (p : PointXYZI)
    (h : BevInv cell_size max_height grid_cells bz mei seen g) :
    BevInv cell_size max_height grid_cells bz mei (seen ++ [p])
      (fillStep cell_size max_height grid_cells bz mei g p) := by
  intro i j hij
  obtain ⟨hd, hs, hh⟩ := h i j hij
  rw [countedPoints_snoc]
  by_cases hc : p.z + bz < max_height ∧ bevIndex grid_cells p.x cell_size = i ∧
      bevIndex grid_cells p.y cell_size = j
  · obtain ⟨hz, hx, hy⟩ := hc
    have hin : inGrid grid_cells (bevIndex grid_cells p.x cell_size)
        (bevIndex grid_cells p.y cell_size) := by rw [hx, hy]; exact hij
    have hstep : fillStep cell_size max_height grid_cells bz mei g p =
        { height := set2 g.height i j (Max.max (g.height i j) (p.z + bz))
          density := set2 g.density i j (g.density i j + 1)
          intensity := set2 g.intensity i j (g.intensity i j + p.intensity / mei) } := by
      unfold fillStep
      simp only []
      rw [if_pos hz, if_pos hin, hx, hy]
    rw [hstep, if_pos ⟨hz, hx, hy⟩]
    simp only [set2, and_self, if_true, List.length_append, List.length_singleton,
      List.map_append, List.map_cons, List.map_nil, List.sum_append, List.sum_cons,
      List.sum_nil, List.foldl_append, List.foldl_cons, List.foldl_nil, add_zero]
    refine ⟨?_, ?_, ?_⟩
    · rw [hd]; push_cast; rfl
    · rw [hs]
    · rw [hh]
  · rw [if_neg hc]
    have hsame : (fillStep cell_size max_height grid_cells bz mei g p).density i j
          = g.density i j ∧
        (fillStep cell_size max_height grid_cells bz mei g p).intensity i j
          = g.intensity i j ∧
        (fillStep cell_size max_height grid_cells bz mei g p).height i j
          = g.height i j := by
      unfold fillStep
      simp only []
      by_cases hz : p.z + bz < max_height
      · rw [if_pos hz]
        by_cases hin : inGrid grid_cells (bevIndex grid_cells p.x cell_size)
            (bevIndex grid_cells p.y cell_size)
        · rw [if_pos hin]
          have hne : ¬ (i = bevIndex grid_cells p.x cell_size ∧
              j = bevIndex grid_cells p.y cell_size) :=
            fun hxy => hc ⟨hz, hxy.1.symm, hxy.2.symm⟩
          simp [set2, hne]
        · rw [if_neg hin]
          exact ⟨rfl, rfl, rfl⟩
      · rw [if_neg hz]
        exact ⟨rfl, rfl, rfl⟩
    rw [hsame.1, hsame.2.1, hsame.2.2, List.append_nil]
    exact ⟨hd, hs, hh⟩

theorem bevInv_foldl (cell_size max_height : ℚ) (grid_cells : Int) (bz mei : ℚ) :
    ∀ (rest seen : List PointXYZI) (g : BevGrids),
      BevInv cell_size max_height grid_cells bz mei seen g →
      BevInv cell_size max_height grid_cells bz mei (seen ++ rest)
        (rest.foldl (fillStep cell_size max_height grid_cells bz mei) g)
  | [], seen, g, h => by simpa using h
  | p :: rest, seen, g, h => by
    have ih := bevInv_foldl cell_size max_height grid_cells bz mei rest (seen ++ [p]) _
      (bevInv_step cell_size max_height grid_cells bz mei seen g p h)
    simpa [List.append_assoc] using ih

theorem bevInv_fill (cell_size max_height : ℚ) (grid_cells : Int) (bz mei : ℚ)
    (points : List PointXYZI) :
    BevInv cell_size max_height grid_cells bz mei points
      (fillGrids cell_size max_height grid_cells bz mei points) := by
  have h := bevInv_foldl cell_size max_height grid_cells bz mei points [] _
    (bevInv_start cell_size max_height grid_cells bz mei)
  simpa [fillGrids] using h

theorem toInt_nonneg {q : ℚ} (h : 0 ≤ q) : 0 ≤ toInt q := by
  rw [toInt_of_nonneg h]
  exact Int.floor_nonneg.2 h

theorem toInt_min_255 {v : ℚ} (h : 0 ≤ v) :
    toInt (Min.min 255 v) = Min.min (toInt v) 255 := by
  rcases le_total v 255 with hv | hv
  · rw [min_eq_right hv, toInt_of_nonneg h]
    have h1 : ⌊v⌋ ≤ 255 := by
      have := Int.floor_le v
      have h2 : ((⌊v⌋ : Int) : ℚ) ≤ ((255 : Int) : ℚ) :=
        le_trans this (by exact_mod_cast hv)
      exact_mod_cast h2
    exact (min_eq_left h1).symm
  · rw [min_eq_left hv, toInt_of_nonneg h]
    have h1 : (255 : Int) ≤ ⌊v⌋ := by
      rw [Int.le_floor]
      exact_mod_cast hv
    rw [min_eq_right h1]
    have := toInt_intCast 255
    simpa using this

theorem toInt_le_of_le {v : ℚ} {n : Int} (h : 0 ≤ v) (hv : v ≤ n) : toInt v ≤ n := by
  rw [toInt_of_nonneg h]
  have h2 : ((⌊v⌋ : Int) : ℚ) ≤ (n : ℚ) := le_trans (Int.floor_le v) hv
  exact_mod_cast h2

theorem toInt_lt_of_lt {v : ℚ} {n : Int} (h : 0 ≤ v) (hv : v < n) : toInt v < n := by
  rw [toInt_of_nonneg h]
  have h2 : ((⌊v⌋ : Int) : ℚ) < (n : ℚ) := lt_of_le_of_lt (Int.floor_le v) hv
  exact_mod_cast h2

theorem densityByte_of_pos (density : Int) (entry : ℚ) (hd : 0 ≤ density)
    (hn : 1 ≤ toInt entry) :
    ∃ b : Nat, densityByte density entry = some b ∧ b ≤ 255 ∧
      (b : Int) = Min.min (toInt ((density : ℚ) / ((toInt entry : Int) : ℚ) * 255)) 255 ∧
      (b : Int) = toInt (Min.min 255 (255 * (density : ℚ) / ((toInt entry : Int) : ℚ))) := by
  have hne : toInt entry ≠ 0 := by omega
  have hnq : (0 : ℚ) < ((toInt entry : Int) : ℚ) := by
    exact_mod_cast (by omega : 0 < toInt entry)
  have hv : (0 : ℚ) ≤ (density : ℚ) / ((toInt entry : Int) : ℚ) * 255 := by
    have hdq : (0 : ℚ) ≤ (density : ℚ) := by exact_mod_cast hd
    positivity
  have h0 : 0 ≤ Min.min (toInt ((density : ℚ) / ((toInt entry : Int) : ℚ) * 255)) 255 :=
    le_min (toInt_nonneg hv) (by norm_num)
  have h1 : Min.min (toInt ((density : ℚ) / ((toInt entry : Int) : ℚ) * 255)) 255 < 256 :=
    lt_of_le_of_lt (min_le_right _ _) (by norm_num)
  have hb := toUchar_of_range h0 h1
  refine ⟨toUchar (Min.min (toInt ((density : ℚ) / ((toInt entry : Int) : ℚ) * 255)) 255),
    ?_, ?_, hb, ?_⟩
  · unfold densityByte
    simp only []
    rw [if_neg hne]
  · have : ((toUchar (Min.min
        (toInt ((density : ℚ) / ((toInt entry : Int) : ℚ) * 255)) 255) : Nat) : Int)
        ≤ 255 := by
      rw [hb]; exact min_le_right _ _
    exact_mod_cast this
  · rw [hb]
    have he : 255 * (density : ℚ) / ((toInt entry : Int) : ℚ)
        = (density : ℚ) / ((toInt entry : Int) : ℚ) * 255 := by ring
    rw [he, toInt_min_255 hv]

theorem foldl_max_spec : ∀ (l : List ℚ) (s : ℚ),
    s ≤ l.foldl Max.max s ∧ (∀ e ∈ l, e ≤ l.foldl Max.max s) ∧
      (l.foldl Max.max s = s ∨ l.foldl Max.max s ∈ l)
  | [], s => by simp
  | a :: t, s => by
    obtain ⟨h1, h2, h3⟩ := foldl_max_spec t (Max.max s a)
    rw [List.foldl_cons]
    refine ⟨le_trans (le_max_left _ _) h1, ?_, ?_⟩
    · intro e he
      rcases List.mem_cons.1 he with rfl | he
      · exact le_trans (le_max_right _ _) h1
      · exact h2 e he
    · rcases h3 with h3 | h3
      · rcases max_choice s a with hc | hc
        · left; rw [h3, hc]
        · right; rw [h3, hc]; exact List.mem_cons_self _ _
      · right; exact List.mem_cons_of_mem _ h3

theorem exists_greatest_of_ne_nil (l : List ℚ) (hne : l ≠ []) :
    ∃ h, h ∈ l ∧ ∀ e ∈ l, e ≤ h := by
  cases l with
  | nil => exact absurd rfl hne
  | cons a t =>
    obtain ⟨h1, h2, h3⟩ := foldl_max_spec t a
    refine ⟨t.foldl Max.max a, ?_, ?_⟩
    · rcases h3 with h3 | h3
      · rw [h3]; exact List.mem_cons_self _ _
      · exact List.mem_cons_of_mem _ h3
    · intro e he
      rcases List.mem_cons.1 he with rfl | he
      · exact h1
      · exact h2 e he

theorem max_foldl_max_zero (l : List ℚ) (s h : ℚ) (hs : s ≤ 0) (hmem : h ∈ l)
    (hub : ∀ e ∈ l, e ≤ h) :
    Max.max (l.foldl Max.max s) 0 = Max.max h 0 := by
  obtain ⟨h1, h2, h3⟩ := foldl_max_spec l s
  rcases h3 with h3 | h3
  · have hh : h ≤ 0 := by
      have := h2 h hmem
      rw [h3] at this
      exact le_trans this hs
    rw [h3, max_eq_right hs, max_eq_right hh]
  · have : l.foldl Max.max s = h := le_antisymm (hub _ h3) (h2 h hmem)
    rw [this]

theorem bevIndex_origin_2 : bevIndex 2 0 1 = 1 := by
  have h : Int.tdiv 2 2 = 1 := rfl
  simp [bevIndex, toInt, h]

theorem gridCells_2_1 : gridCells 2 1 = 2 := by
  simp [gridCells, toInt]

theorem toInt_five_halves : toInt (5 / 2) = 2 := by
  norm_num [toInt, Int.floor_eq_iff]

theorem one_le_toInt {entry : ℚ} (he : 1 ≤ entry) : 1 ≤ toInt entry := by
  rw [toInt_of_nonneg (le_trans (by norm_num) he), Int.le_floor]
  exact_mod_cast he

theorem birdViewCell_density_of_pos (cell_size max_height grid_dim bz mei : ℚ)
    (max_points_map : Int → Int → ℚ) (points : List PointXYZI) (i j : Int)
    (hin : inGrid (gridCells grid_dim cell_size) i j)
    (hn : 1 ≤ toInt (max_points_map i j)) :
    ∃ b : Nat,
      (birdViewCell cell_size max_height grid_dim bz mei max_points_map points i j).density
        = some b ∧ b ≤ 255 ∧
      (b : Int) = toInt (Min.min 255 (255 *
        ((countedPoints cell_size max_height (gridCells grid_dim cell_size) bz
          points i j).length : ℚ) / ((toInt (max_points_map i j) : Int) : ℚ))) := by
  obtain ⟨hd, _, _⟩ := bevInv_fill cell_size max_height (gridCells grid_dim cell_size)
    bz mei points i j hin
  obtain ⟨b, hb, hle, _, hval⟩ := densityByte_of_pos
    ((fillGrids cell_size max_height (gridCells grid_dim cell_size) bz mei points).density
      i j) (max_points_map i j) (by rw [hd]; exact Int.natCast_nonneg _) hn
  refine ⟨b, hb, hle, ?_⟩
  rw [hval, hd, Int.cast_natCast]

/-- C5 (counterexample): one point at the origin, `cell_size = 1`, `grid_dim = 2`, table
entry `5/2` for every cell: the point is the only counted point of cell `(1, 1)`, the
density byte written is `127` (the entry is first converted to the integer `2`), while
`min(255, 255 * 1 / (5/2))` truncated is `102`. -/
theorem birdView_density_counterexample :
    inGrid (gridCells 2 1) 1 1 ∧
    countedPoints 1 10 (gridCells 2 1) 0 [⟨0, 0, 0, 0⟩] 1 1 = [⟨0, 0, 0, 0⟩] ∧
    (birdViewCell 1 10 2 0 1 (fun _ _ => 5 / 2) [⟨0, 0, 0, 0⟩] 1 1).density = some 127 ∧
    toInt (Min.min 255 (255 * ((1 : Nat) : ℚ) / (5 / 2))) = 102 := by
  have hin : inGrid 2 1 1 := by simp [inGrid]
  have hd : (fillGrids 1 10 2 0 1 [⟨0, 0, 0, 0⟩]).density 1 1 = 1 := by
    simp [fillGrids, fillStep, bevIndex_origin_2, hin, set2, BevGrids.start]
  have h127 : toInt ((((1 : Int) : ℚ)) / (((2 : Int) : ℚ)) * 255) = 127 := by
    norm_num [toInt, Int.floor_eq_iff]
  have hu : toUchar (Min.min 127 255) = 127 := by decide
  refine ⟨by rw [gridCells_2_1]; exact hin, ?_, ?_, ?_⟩
  · simp [countedPoints, gridCells_2_1, bevIndex_origin_2]
  · unfold birdViewCell densityByte
    simp only [gridCells_2_1, hd, toInt_five_halves, h127, hu]
    rfl
  · norm_num [toInt]

/-- C5 (amended): for every cloud, every cell `(i, j)` of the raster and every
normalization table whose entry for the cell, converted to an integer `n`, is at least
1, the density byte equals `min(255, 255 * density / n)` truncated to an integer, where
`density` is the number of points with vehicle-frame elevation below `max_height` binned
into the cell. -/
theorem birdView_density_formula (cell_size max_height grid_dim bz mei : ℚ)
    (max_points_map : Int → Int → ℚ) (points : List PointXYZI) (i j : Int)
    (hin : inGrid (gridCells grid_dim cell_size) i j)
    (hn : 1 ≤ toInt (max_points_map i j)) :
    ∃ b : Nat,
      (birdViewCell cell_size max_height grid_dim bz mei max_points_map points i j).density
        = some b ∧
      (b : Int) = toInt (Min.min 255 (255 *
        ((countedPoints cell_size max_height (gridCells grid_dim cell_size) bz
          points i j).length : ℚ) / ((toInt (max_points_map i j) : Int) : ℚ))) := by
  obtain ⟨b, hb, _, hval⟩ := birdViewCell_density_of_pos cell_size max_height grid_dim
    bz mei max_points_map points i j hin hn
  exact ⟨b, hb, hval⟩

/-- Witness for C5 (amended): the one-point cloud with table entry `5/2`. -/
theorem birdView_density_formula_witness :
    inGrid (gridCells 2 1) 1 1 ∧ 1 ≤ toInt ((fun _ _ => 5 / 2 : Int → Int → ℚ) 1 1) ∧
    ∃ b : Nat,
      (birdViewCell 1 10 2 0 1 (fun _ _ => 5 / 2) [⟨0, 0, 0, 0⟩] 1 1).density = some b ∧
      (b : Int) = toInt (Min.min 255 (255 *
        ((countedPoints 1 10 (gridCells 2 1) 0 [⟨0, 0, 0, 0⟩] 1 1).length : ℚ) /
          ((toInt ((fun _ _ => 5 / 2 : Int → Int → ℚ) 1 1) : Int) : ℚ))) :=
  have hin : inGrid (gridCells 2 1) 1 1 := by rw [gridCells_2_1]; simp [inGrid]
  have hn : 1 ≤ toInt ((fun _ _ => 5 / 2 : Int → Int → ℚ) 1 1) := by
    show 1 ≤ toInt (5 / 2)
    rw [toInt_five_halves]; norm_num
  ⟨hin, hn,
    birdView_density_formula 1 10 2 0 1 (fun _ _ => 5 / 2) [⟨0, 0, 0, 0⟩] 1 1 hin hn⟩

/-- C6 (counterexample): the empty cloud with the strictly positive table entry `1/2`:
the entry converts to the integer `0`, the density value of cell `(0, 0)` is a division
by zero and no byte is defined. -/
theorem birdView_density_range_counterexample :
    (0 : ℚ) < 1 / 2 ∧ inGrid (gridCells 2 1) 0 0 ∧
    densityByte 0 (1 / 2) = none ∧
    (birdViewCell 1 10 2 0 1 (fun _ _ => 1 / 2) [] 0 0).density = none := by
  have h0 : toInt (1 / 2) = 0 := by norm_num [toInt, Int.floor_eq_iff]
  refine ⟨by norm_num, by rw [gridCells_2_1]; simp [inGrid], ?_, ?_⟩
  · unfold densityByte
    simp only [h0]
    rfl
  · unfold birdViewCell densityByte
    simp only [h0]
    rfl

/-- C6 (amended): for every density `≥ 0` and every normalization-map entry `≥ 1` the
density value is well defined (the divisor is not zero) and lies in `[0, 255]`, with no
wrap-around in the conversion to a byte; in particular this holds for every cell of the
raster of every cloud whose table entry is at least 1. -/
theorem birdView_density_range (density : Int) (entry : ℚ) (hd : 0 ≤ density)
    (he : 1 ≤ entry) :
    (∃ b : Nat, densityByte density entry = some b ∧ b ≤ 255 ∧
      (b : Int) = Min.min (toInt ((density : ℚ) / ((toInt entry : Int) : ℚ) * 255)) 255) ∧
    (∀ (cell_size max_height grid_dim bz mei : ℚ) (max_points_map : Int → Int → ℚ)
      (points : List PointXYZI) (i j : Int),
      inGrid (gridCells grid_dim cell_size) i j → max_points_map i j = entry →
      ∃ b : Nat,
        (birdViewCell cell_size max_height grid_dim bz mei max_points_map points i j).density
          = some b ∧ b ≤ 255) := by
  constructor
  · obtain ⟨b, hb, hle, hval, _⟩ := densityByte_of_pos density entry hd (one_le_toInt he)
    exact ⟨b, hb, hle, hval⟩
  · intro cell_size max_height grid_dim bz mei max_points_map points i j hin hmap
    obtain ⟨b, hb, hle, _⟩ := birdViewCell_density_of_pos cell_size max_height grid_dim
      bz mei max_points_map points i j hin (by rw [hmap]; exact one_le_toInt he)
    exact ⟨b, hb, hle⟩

/-- Witness for C6 (amended): density 3 with table entry `5/2`. -/
theorem birdView_density_range_witness :
    (0 : Int) ≤ 3 ∧ (1 : ℚ) ≤ 5 / 2 ∧
    ((∃ b : Nat, densityByte 3 (5 / 2) = some b ∧ b ≤ 255 ∧
      (b : Int) = Min.min (toInt (((3 : Int) : ℚ) / ((toInt (5 / 2) : Int) : ℚ) * 255)) 255) ∧
    (∀ (cell_size max_height grid_dim bz mei : ℚ) (max_points_map : Int → Int → ℚ)
      (points : List PointXYZI) (i j : Int),
      inGrid (gridCells grid_dim cell_size) i j → max_points_map i j = 5 / 2 →
      ∃ b : Nat,
        (birdViewCell cell_size max_height grid_dim bz mei max_points_map points i j).density
          = some b ∧ b ≤ 255)) :=
  ⟨by norm_num, by norm_num, birdView_density_range 3 (5 / 2) (by norm_num) (by norm_num)⟩

theorem birdViewCell_height_spec (cell_size max_height grid_dim bz mei : ℚ)
    (max_points_map : Int → Int → ℚ) (points : List PointXYZI) (i j : Int)
    (hmh : 0 < max_height) (hin : inGrid (gridCells grid_dim cell_size) i j)
    (hne : countedPoints cell_size max_height (gridCells grid_dim cell_size) bz
      points i j ≠ []) :
    ∃ h : ℚ,
      IsGreatest {e | ∃ q ∈ countedPoints cell_size max_height
        (gridCells grid_dim cell_size) bz points i j, q.z + bz = e} h ∧
      ((birdViewCell cell_size max_height grid_dim bz mei max_points_map points i j).height
        : Int) = toInt (255 * Max.max h 0 / max_height) ∧
      (birdViewCell cell_size max_height grid_dim bz mei max_points_map points i j).height
        ≤ 254 := by
  obtain ⟨_, _, hh⟩ := bevInv_fill cell_size max_height (gridCells grid_dim cell_size)
    bz mei points i j hin
  have hne2 : (countedPoints cell_size max_height (gridCells grid_dim cell_size) bz
      points i j).map (fun q => q.z + bz) ≠ [] := by
    simpa using hne
  obtain ⟨h, hmem, hub⟩ := exists_greatest_of_ne_nil _ hne2
  have hclamp := max_foldl_max_zero _ (-(99999 / 10)) h (by norm_num) hmem hub
  obtain ⟨q, hq, hqh⟩ := List.mem_map.1 hmem
  have hlt : h < max_height := by
    rw [← hqh]
    have := (List.mem_filter.1 hq).2
    simp only [decide_eq_true_eq] at this
    exact this.1
  have hmax_lt : Max.max h 0 < max_height := max_lt hlt hmh
  have hmax_nn : (0 : ℚ) ≤ Max.max h 0 := le_max_right _ _
  have hv0 : (0 : ℚ) ≤ 255 * Max.max h 0 / max_height := by positivity
  have hv1 : 255 * Max.max h 0 / max_height < ((255 : Int) : ℚ) := by
    rw [div_lt_iff₀ hmh]
    push_cast
    nlinarith
  have hi0 := toInt_nonneg hv0
  have hi1 := toInt_lt_of_lt hv0 hv1
  have hbyte : ((birdViewCell cell_size max_height grid_dim bz mei max_points_map
      points i j).height : Int) = toInt (255 * Max.max h 0 / max_height) := by
    unfold birdViewCell heightByte
    simp only []
    rw [hh, hclamp]
    exact toUchar_of_range hi0 (by omega)
  refine ⟨h, ⟨⟨q, hq, hqh⟩, ?_⟩, hbyte, ?_⟩
  · rintro e ⟨q2, hq2, rfl⟩
    exact hub _ (List.mem_map.2 ⟨q2, hq2, rfl⟩)
  · have : ((birdViewCell cell_size max_height grid_dim bz mei max_points_map
        points i j).height : Int) ≤ 254 := by rw [hbyte]; omega
    exact_mod_cast this

/-- C7: for `max_height > 0` and every cell of the raster that received at least one
counted point, the height byte equals `255 * max(h, 0) / max_height` truncated to an
integer, `h` being the greatest vehicle-frame elevation `point.z + bz` among the points
with elevation below `max_height` binned into the cell; for a cloud with a single point
at elevation `max_height / 2` the byte of that point's cell is 127. -/
theorem birdView_height_formula (cell_size max_height grid_dim bz mei : ℚ)
    (max_points_map : Int → Int → ℚ) (points : List PointXYZI) (i j : Int)
    (hmh : 0 < max_height) (hin : inGrid (gridCells grid_dim cell_size) i j)
    (hne : countedPoints cell_size max_height (gridCells grid_dim cell_size) bz
      points i j ≠ []) :
    (∃ h : ℚ,
      IsGreatest {e | ∃ q ∈ countedPoints cell_size max_height
        (gridCells grid_dim cell_size) bz points i j, q.z + bz = e} h ∧
      ((birdViewCell cell_size max_height grid_dim bz mei max_points_map points i j).height
        : Int) = toInt (255 * Max.max h 0 / max_height)) ∧
    (∀ p : PointXYZI, points = [p] → p.z + bz = max_height / 2 →
      (birdViewCell cell_size max_height grid_dim bz mei max_points_map points i j).height
        = 127) := by
  obtain ⟨h, hg, hbyte, _⟩ := birdViewCell_height_spec cell_size max_height grid_dim bz mei
    max_points_map points i j hmh hin hne
  refine ⟨⟨h, hg, hbyte⟩, ?_⟩
  intro p hp hz
  obtain ⟨q, hq, hqh⟩ := hg.1
  have hqp : q = p := by
    have := List.mem_of_mem_filter hq
    rw [hp] at this
    simpa using this
  have hh : h = max_height / 2 := by rw [← hqh, hqp, hz]
  have hval : 255 * Max.max h 0 / max_height = 255 / 2 := by
    rw [hh, max_eq_left (by positivity)]
    field_simp
    ring
  have h127 : toInt (255 / 2) = 127 := by norm_num [toInt, Int.floor_eq_iff]
  rw [hval, h127] at hbyte
  exact_mod_cast hbyte

/-- Witness for C7: one point at elevation 5 with `max_height = 10`. -/
theorem birdView_height_formula_witness :
    (0 : ℚ) < 10 ∧ inGrid (gridCells 2 1) 1 1 ∧
    countedPoints 1 10 (gridCells 2 1) 0 [⟨0, 0, 5, 0⟩] 1 1 ≠ [] ∧
    ((∃ h : ℚ,
      IsGreatest {e | ∃ q ∈ countedPoints 1 10 (gridCells 2 1) 0 [⟨0, 0, 5, 0⟩] 1 1,
        q.z + 0 = e} h ∧
      ((birdViewCell 1 10 2 0 1 (fun _ _ => 1) [⟨0, 0, 5, 0⟩] 1 1).height : Int)
        = toInt (255 * Max.max h 0 / 10)) ∧
    (∀ p : PointXYZI, [(⟨0, 0, 5, 0⟩ : PointXYZI)] = [p] → p.z + 0 = 10 / 2 →
      (birdViewCell 1 10 2 0 1 (fun _ _ => 1) [⟨0, 0, 5, 0⟩] 1 1).height = 127)) :=
  have hin : inGrid (gridCells 2 1) 1 1 := by rw [gridCells_2_1]; simp [inGrid]
  have hne : countedPoints 1 10 (gridCells 2 1) 0 [⟨0, 0, 5, 0⟩] 1 1 ≠ [] := by
    have h5 : (5 : ℚ) < 10 := by norm_num
    simp [countedPoints, gridCells_2_1, bevIndex_origin_2, h5]
  ⟨by norm_num, hin, hne,
    birdView_height_formula 1 10 2 0 1 (fun _ _ => 1) [⟨0, 0, 5, 0⟩] 1 1 (by norm_num)
      hin hne⟩

theorem intensitySum_nonneg (cell_size max_height : ℚ) (grid_cells : Int) (bz mei : ℚ)
    (points : List PointXYZI) (i j : Int) (hmei : 0 < mei)
    (hint : ∀ p ∈ points, 0 ≤ p.intensity) :
    0 ≤ ((countedPoints cell_size max_height grid_cells bz points i j).map
      (fun q => q.intensity / mei)).sum := by
  apply List.sum_nonneg
  intro x hx
  obtain ⟨q, hq, rfl⟩ := List.mem_map.1 hx
  exact div_nonneg (hint q (List.mem_of_mem_filter hq)) (le_of_lt hmei)

/-- C8: for every cloud with non-negative intensities, `max_expected_intensity > 0` and
every cell of the raster, the intensity byte equals
`min(255, 255 * intensitySum / density)` truncated to an integer when `density > 0` and
`0` when `density = 0`, where `intensitySum` is the sum of
`intensity / max_expected_intensity` over the counted points of the cell and `density`
is their number; the byte lies in `[0, 255]`. -/
theorem birdView_intensity_formula (cell_size max_height grid_dim bz mei : ℚ)
    (max_points_map : Int → Int → ℚ) (points : List PointXYZI) (i j : Int)
    (hmei : 0 < mei) (hint : ∀ p ∈ points, 0 ≤ p.intensity)
    (hin : inGrid (gridCells grid_dim cell_size) i j) :
    ((birdViewCell cell_size max_height grid_dim bz mei max_points_map points i j).intensity
      : Int)
      = (if 0 < (countedPoints cell_size max_height (gridCells grid_dim cell_size) bz
            points i j).length then
          toInt (Min.min 255 (255 *
            ((countedPoints cell_size max_height (gridCells grid_dim cell_size) bz
              points i j).map (fun q => q.intensity / mei)).sum /
            ((countedPoints cell_size max_height (gridCells grid_dim cell_size) bz
              points i j).length : ℚ)))
        else 0) ∧
    (birdViewCell cell_size max_height grid_dim bz mei max_points_map points i j).intensity
      ≤ 255 := by
  obtain ⟨hd, hs, _⟩ := bevInv_fill cell_size max_height (gridCells grid_dim cell_size)
    bz mei points i j hin
  have hS := intensitySum_nonneg cell_size max_height (gridCells grid_dim cell_size) bz mei
    points i j hmei hint
  have hbyte : ((birdViewCell cell_size max_height grid_dim bz mei max_points_map
      points i j).intensity : Int)
      = (if 0 < (countedPoints cell_size max_height (gridCells grid_dim cell_size) bz
            points i j).length then
          toInt (Min.min 255 (255 *
            ((countedPoints cell_size max_height (gridCells grid_dim cell_size) bz
              points i j).map (fun q => q.intensity / mei)).sum /
            ((countedPoints cell_size max_height (gridCells grid_dim cell_size) bz
              points i j).length : ℚ)))
        else 0) ∧
      ((birdViewCell cell_size max_height grid_dim bz mei max_points_map
        points i j).intensity : Int) ≤ 255 := by
    unfold birdViewCell intensityByte
    simp only []
    rw [hd, hs]
    by_cases hlen : 0 < (countedPoints cell_size max_height (gridCells grid_dim cell_size)
        bz points i j).length
    · have hlenZ : ((countedPoints cell_size max_height (gridCells grid_dim cell_size)
          bz points i j).length : Int) > 0 := by exact_mod_cast hlen
      rw [if_pos hlenZ, if_pos hlen, Int.cast_natCast]
      have hv0 : (0 : ℚ) ≤ Min.min 255 (255 *
          ((countedPoints cell_size max_height (gridCells grid_dim cell_size) bz
            points i j).map (fun q => q.intensity / mei)).sum /
          ((countedPoints cell_size max_height (gridCells grid_dim cell_size) bz
            points i j).length : ℚ)) := by
        apply le_min (by norm_num)
        positivity
      have hv1 : Min.min 255 (255 *
          ((countedPoints cell_size max_height (gridCells grid_dim cell_size) bz
            points i j).map (fun q => q.intensity / mei)).sum /
          ((countedPoints cell_size max_height (gridCells grid_dim cell_size) bz
            points i j).length : ℚ)) ≤ ((255 : Int) : ℚ) := by
        push_cast
        exact min_le_left _ _
      have hi0 := toInt_nonneg hv0
      have hi1 := toInt_le_of_le hv0 hv1
      rw [toUchar_of_range hi0 (by omega)]
      exact ⟨rfl, hi1⟩
    · have hlenZ : ¬ ((countedPoints cell_size max_height (gridCells grid_dim cell_size)
          bz points i j).length : Int) > 0 := by
        intro h; exact hlen (by exact_mod_cast h)
      rw [if_neg hlenZ, if_neg hlen]
      have h0 : toInt 0 = 0 := by simp [toInt]
      rw [h0]
      exact ⟨by decide, by decide⟩
  exact ⟨hbyte.1, by exact_mod_cast hbyte.2⟩

/-- Witness for C8: one point of intensity `1/2` at the origin. -/
theorem birdView_intensity_formula_witness :
    (0 : ℚ) < 1 ∧ (∀ p ∈ [(⟨0, 0, 0, 1 / 2⟩ : PointXYZI)], 0 ≤ p.intensity) ∧
    inGrid (gridCells 2 1) 1 1 ∧
    (((birdViewCell 1 10 2 0 1 (fun _ _ => 1) [⟨0, 0, 0, 1 / 2⟩] 1 1).intensity : Int)
      = (if 0 < (countedPoints 1 10 (gridCells 2 1) 0 [⟨0, 0, 0, 1 / 2⟩] 1 1).length then
          toInt (Min.min 255 (255 *
            ((countedPoints 1 10 (gridCells 2 1) 0 [⟨0, 0, 0, 1 / 2⟩] 1 1).map
              (fun q => q.intensity / 1)).sum /
            ((countedPoints 1 10 (gridCells 2 1) 0 [⟨0, 0, 0, 1 / 2⟩] 1 1).length : ℚ)))
        else 0) ∧
    (birdViewCell 1 10 2 0 1 (fun _ _ => 1) [⟨0, 0, 0, 1 / 2⟩] 1 1).intensity ≤ 255) :=
  have hint : ∀ p ∈ [(⟨0, 0, 0, 1 / 2⟩ : PointXYZI)], 0 ≤ p.intensity := by
    intro p hp
    rw [List.mem_singleton.1 hp]
    norm_num
  have hin : inGrid (gridCells 2 1) 1 1 := by rw [gridCells_2_1]; simp [inGrid]
  ⟨by norm_num, hint, hin,
    birdView_intensity_formula 1 10 2 0 1 (fun _ _ => 1) [⟨0, 0, 0, 1 / 2⟩] 1 1
      (by norm_num) hint hin⟩

theorem birdView_cell (cell_size max_height grid_dim bz mei : ℚ)
    (max_points_map : Int → Int → ℚ) (points : List PointXYZI) (i j : Nat)
    (hi : (i : Int) < gridCells grid_dim cell_size)
    (hj : (j : Int) < gridCells grid_dim cell_size) :
    ((birdView cell_size max_height grid_dim bz mei max_points_map points)[i]?).bind
        (fun row => row[j]?)
      = some (birdViewCell cell_size max_height grid_dim bz mei max_points_map points i j) := by
  have hi2 : i < (gridCells grid_dim cell_size).toNat := by omega
  have hj2 : j < (gridCells grid_dim cell_size).toNat := by omega
  unfold birdView
  simp [List.getElem?_map, List.getElem?_range, hi2, hj2]

theorem birdView_length (cell_size max_height grid_dim bz mei : ℚ)
    (max_points_map : Int → Int → ℚ) (points : List PointXYZI) :
    (birdView cell_size max_height grid_dim bz mei max_points_map points).length
        = (gridCells grid_dim cell_size).toNat ∧
    ∀ row ∈ birdView cell_size max_height grid_dim bz mei max_points_map points,
      row.length = (gridCells grid_dim cell_size).toNat := by
  unfold birdView
  constructor
  · simp
  · intro row hrow
    simp only [List.mem_map] at hrow
    obtain ⟨i, _, rfl⟩ := hrow
    simp

/-! ## GroundSegmenter: idempotence and the visited flag -/

theorem filterGround_congr_cell (p q : PointXYZI) (grid_dim : Int) (hm : HeightMap)
    (height_threshold cell_size : ℚ)
    (hx : groundIndex grid_dim q.x cell_size = groundIndex grid_dim p.x cell_size)
    (hy : groundIndex grid_dim q.y cell_size = groundIndex grid_dim p.y cell_size) :
    filterGround q grid_dim hm height_threshold cell_size
      = filterGround p grid_dim hm height_threshold cell_size := by
  unfold filterGround
  simp only [hx, hy]

theorem mem_removeFloor_iff (cell_size height_threshold : ℚ) (grid_dim : Int)
    (points : List PointXYZI) (p : PointXYZI) :
    p ∈ removeFloor false cell_size height_threshold grid_dim points ↔
      p ∈ points ∧ ¬ SpecGround grid_dim cell_size height_threshold points p := by
  rw [← filterGround_iff_specGround]
  simp [removeFloor]

theorem groundCellPoints_removeFloor (cell_size height_threshold : ℚ) (grid_dim : Int)
    (points : List PointXYZI) (p : PointXYZI)
    (hp : p ∈ removeFloor false cell_size height_threshold grid_dim points) :
    groundCellPoints grid_dim cell_size
        (removeFloor false cell_size height_threshold grid_dim points)
        (groundIndex grid_dim p.x cell_size) (groundIndex grid_dim p.y cell_size)
      = groundCellPoints grid_dim cell_size points
        (groundIndex grid_dim p.x cell_size) (groundIndex grid_dim p.y cell_size) := by
  have hkeep : (!((filterGround p grid_dim (buildHeightMap grid_dim cell_size points)
      height_threshold cell_size).getD false)) = true := by
    have := (List.mem_filter.1 hp).2
    exact this
  unfold groundCellPoints removeFloor
  simp only []
  rw [List.filter_filter]
  apply List.filter_congr
  intro q _
  by_cases hc : groundIndex grid_dim q.x cell_size = groundIndex grid_dim p.x cell_size ∧
      groundIndex grid_dim q.y cell_size = groundIndex grid_dim p.y cell_size
  · rw [filterGround_congr_cell p q grid_dim _ height_threshold cell_size hc.1 hc.2, hkeep]
    simp
  · simp [hc]

theorem specGround_congr (grid_dim : Int) (cell_size height_threshold : ℚ)
    (l₁ l₂ : List PointXYZI) (p : PointXYZI)
    (h : groundCellPoints grid_dim cell_size l₁
        (groundIndex grid_dim p.x cell_size) (groundIndex grid_dim p.y cell_size)
      = groundCellPoints grid_dim cell_size l₂
        (groundIndex grid_dim p.x cell_size) (groundIndex grid_dim p.y cell_size)) :
    SpecGround grid_dim cell_size height_threshold l₁ p ↔
      SpecGround grid_dim cell_size height_threshold l₂ p := by
  unfold SpecGround
  simp only [h]

theorem removeFloor_idem (cell_size height_threshold : ℚ) (grid_dim : Int)
    (points : List PointXYZI) :
    removeFloor false cell_size height_threshold grid_dim
        (removeFloor false cell_size height_threshold grid_dim points)
      = removeFloor false cell_size height_threshold grid_dim points := by
  have hfix : ∀ p ∈ removeFloor false cell_size height_threshold grid_dim points,
      p ∈ removeFloor false cell_size height_threshold grid_dim
        (removeFloor false cell_size height_threshold grid_dim points) := by
    intro p hp
    rw [mem_removeFloor_iff]
    refine ⟨hp, ?_⟩
    rw [specGround_congr grid_dim cell_size height_threshold _ points p
      (groundCellPoints_removeFloor cell_size height_threshold grid_dim points p hp)]
    exact ((mem_removeFloor_iff cell_size height_threshold grid_dim points p).1 hp).2
  generalize removeFloor false cell_size height_threshold grid_dim points = survivors
    at hfix ⊢
  unfold removeFloor at hfix ⊢
  simp only [] at hfix ⊢
  rw [List.filter_eq_self]
  intro p hp
  exact (List.mem_filter.1 (hfix p hp)).2

theorem heightMap_removeFloor (cell_size height_threshold : ℚ) (grid_dim : Int)
    (points : List PointXYZI) (p : PointXYZI)
    (hp : p ∈ removeFloor false cell_size height_threshold grid_dim points)
    (hin : inGrid grid_dim (groundIndex grid_dim p.x cell_size)
      (groundIndex grid_dim p.y cell_size)) :
    (buildHeightMap grid_dim cell_size
        (removeFloor false cell_size height_threshold grid_dim points)).min
        (groundIndex grid_dim p.x cell_size) (groundIndex grid_dim p.y cell_size)
      = (buildHeightMap grid_dim cell_size points).min
        (groundIndex grid_dim p.x cell_size) (groundIndex grid_dim p.y cell_size) ∧
    (buildHeightMap grid_dim cell_size
        (removeFloor false cell_size height_threshold grid_dim points)).max
        (groundIndex grid_dim p.x cell_size) (groundIndex grid_dim p.y cell_size)
      = (buildHeightMap grid_dim cell_size points).max
        (groundIndex grid_dim p.x cell_size) (groundIndex grid_dim p.y cell_size) := by
  have hcell := groundCellPoints_removeFloor cell_size height_threshold grid_dim points p hp
  obtain ⟨hiff₁, hext₁⟩ := heightMapInv_build grid_dim cell_size
    (removeFloor false cell_size height_threshold grid_dim points)
    (groundIndex grid_dim p.x cell_size) (groundIndex grid_dim p.y cell_size)
  obtain ⟨hiff₂, hext₂⟩ := heightMapInv_build grid_dim cell_size points
    (groundIndex grid_dim p.x cell_size) (groundIndex grid_dim p.y cell_size)
  have hpc : p ∈ groundCellPoints grid_dim cell_size
      (removeFloor false cell_size height_threshold grid_dim points)
      (groundIndex grid_dim p.x cell_size) (groundIndex grid_dim p.y cell_size) := by
    simp [groundCellPoints, hp]
  have hi₁ := hiff₁.2 ⟨hin, p, hpc⟩
  have hi₂ := hiff₂.2 ⟨hin, p, hcell ▸ hpc⟩
  obtain ⟨hl₁, hg₁⟩ := hext₁ hi₁
  obtain ⟨hl₂, hg₂⟩ := hext₂ hi₂
  rw [hcell] at hl₁ hg₁
  exact ⟨hl₁.unique hl₂, hg₁.unique hg₂⟩

/-- C17: with the keep default and `cell_size > 0`, `grid_dim > 0`, `removeFloor` is
idempotent: a second application with the same parameters removes nothing.  Removal is
all-or-nothing per cell: the cell of every surviving point still holds all of its
original points, and for a surviving point inside the grid the cell's least and
greatest `z` in the height map are unchanged. -/
theorem removeFloor_idempotent (cell_size height_threshold : ℚ) (grid_dim : Int)
    (_hcs : 0 < cell_size) (_hgd : 0 < grid_dim) (points : List PointXYZI) :
    removeFloor false cell_size height_threshold grid_dim
        (removeFloor false cell_size height_threshold grid_dim points)
      = removeFloor false cell_size height_threshold grid_dim points ∧
    (∀ p ∈ removeFloor false cell_size height_threshold grid_dim points,
      groundCellPoints grid_dim cell_size
          (removeFloor false cell_size height_threshold grid_dim points)
          (groundIndex grid_dim p.x cell_size) (groundIndex grid_dim p.y cell_size)
        = groundCellPoints grid_dim cell_size points
          (groundIndex grid_dim p.x cell_size) (groundIndex grid_dim p.y cell_size)) ∧
    (∀ p ∈ removeFloor false cell_size height_threshold grid_dim points,
      inGrid grid_dim (groundIndex grid_dim p.x cell_size)
        (groundIndex grid_dim p.y cell_size) →
      (buildHeightMap grid_dim cell_size
          (removeFloor false cell_size height_threshold grid_dim points)).min
          (groundIndex grid_dim p.x cell_size) (groundIndex grid_dim p.y cell_size)
        = (buildHeightMap grid_dim cell_size points).min
          (groundIndex grid_dim p.x cell_size) (groundIndex grid_dim p.y cell_size) ∧
      (buildHeightMap grid_dim cell_size
          (removeFloor false cell_size height_threshold grid_dim points)).max
          (groundIndex grid_dim p.x cell_size) (groundIndex grid_dim p.y cell_size)
        = (buildHeightMap grid_dim cell_size points).max
          (groundIndex grid_dim p.x cell_size) (groundIndex grid_dim p.y cell_size)) :=
  ⟨removeFloor_idem cell_size height_threshold grid_dim points,
    fun p hp => groundCellPoints_removeFloor cell_size height_threshold grid_dim points p hp,
    fun p hp hin => heightMap_removeFloor cell_size height_threshold grid_dim points p hp hin⟩

/-- Witness for C17: a two-point cloud, one point inside and one outside a 4 x 4 grid. -/
theorem removeFloor_idempotent_witness :
    (0 : ℚ) < 1 ∧ (0 : Int) < 4 ∧
    (removeFloor false 1 (1 / 5) 4
        (removeFloor false 1 (1 / 5) 4 [⟨0, 0, 0, 1⟩, ⟨9, 0, 0, 1⟩])
      = removeFloor false 1 (1 / 5) 4 [⟨0, 0, 0, 1⟩, ⟨9, 0, 0, 1⟩] ∧
    (∀ p ∈ removeFloor false 1 (1 / 5) 4 [⟨0, 0, 0, 1⟩, ⟨9, 0, 0, 1⟩],
      groundCellPoints 4 1 (removeFloor false 1 (1 / 5) 4 [⟨0, 0, 0, 1⟩, ⟨9, 0, 0, 1⟩])
          (groundIndex 4 p.x 1) (groundIndex 4 p.y 1)
        = groundCellPoints 4 1 [⟨0, 0, 0, 1⟩, ⟨9, 0, 0, 1⟩]
          (groundIndex 4 p.x 1) (groundIndex 4 p.y 1)) ∧
    (∀ p ∈ removeFloor false 1 (1 / 5) 4 [⟨0, 0, 0, 1⟩, ⟨9, 0, 0, 1⟩],
      inGrid 4 (groundIndex 4 p.x 1) (groundIndex 4 p.y 1) →
      (buildHeightMap 4 1 (removeFloor false 1 (1 / 5) 4
          [⟨0, 0, 0, 1⟩, ⟨9, 0, 0, 1⟩])).min (groundIndex 4 p.x 1) (groundIndex 4 p.y 1)
        = (buildHeightMap 4 1 [⟨0, 0, 0, 1⟩, ⟨9, 0, 0, 1⟩]).min
          (groundIndex 4 p.x 1) (groundIndex 4 p.y 1) ∧
      (buildHeightMap 4 1 (removeFloor false 1 (1 / 5) 4
          [⟨0, 0, 0, 1⟩, ⟨9, 0, 0, 1⟩])).max (groundIndex 4 p.x 1) (groundIndex 4 p.y 1)
        = (buildHeightMap 4 1 [⟨0, 0, 0, 1⟩, ⟨9, 0, 0, 1⟩]).max
          (groundIndex 4 p.x 1) (groundIndex 4 p.y 1))) :=
  ⟨by norm_num, by norm_num,
    removeFloor_idempotent 1 (1 / 5) 4 (by norm_num) (by norm_num)
      [⟨0, 0, 0, 1⟩, ⟨9, 0, 0, 1⟩]⟩

theorem filterGround_eq_none_iff (grid_dim : Int) (cell_size height_threshold : ℚ)
    (points : List PointXYZI) (q : PointXYZI) (hq : q ∈ points) :
    filterGround q grid_dim (buildHeightMap grid_dim cell_size points)
        height_threshold cell_size = none ↔
      ¬ inGrid grid_dim (groundIndex grid_dim q.x cell_size)
        (groundIndex grid_dim q.y cell_size) := by
  obtain ⟨hiff, _⟩ := heightMapInv_build grid_dim cell_size points
    (groundIndex grid_dim q.x cell_size) (groundIndex grid_dim q.y cell_size)
  have hqc : q ∈ groundCellPoints grid_dim cell_size points
      (groundIndex grid_dim q.x cell_size) (groundIndex grid_dim q.y cell_size) := by
    simp [groundCellPoints, hq]
  unfold filterGround
  simp only []
  constructor
  · intro hnone hin
    rw [if_pos ⟨hin, hiff.2 ⟨hin, q, hqc⟩⟩] at hnone
    cases hnone
  · intro hout
    rw [if_neg (fun hc => hout hc.1)]

/-- C18: for every cloud and every point `p` of it whose cell index lies inside the
grid, when `removeFloor` evaluates `filterGround` on `p` the visited flag of the cell is
set and `min[x][y] ≤ p.z ≤ max[x][y]`, so `filterGround` returns a value; the path of
`filterGround` that returns nothing is taken by a point of the cloud exactly when its
cell index is out of bounds. -/
theorem filterGround_visited_in_grid (cell_size height_threshold : ℚ) (grid_dim : Int)
    (points : List PointXYZI) (p : PointXYZI) (hp : p ∈ points)
    (hin : inGrid grid_dim (groundIndex grid_dim p.x cell_size)
      (groundIndex grid_dim p.y cell_size)) :
    ((buildHeightMap grid_dim cell_size points).init
        (groundIndex grid_dim p.x cell_size) (groundIndex grid_dim p.y cell_size) = true ∧
      (buildHeightMap grid_dim cell_size points).min
        (groundIndex grid_dim p.x cell_size) (groundIndex grid_dim p.y cell_size) ≤ p.z ∧
      p.z ≤ (buildHeightMap grid_dim cell_size points).max
        (groundIndex grid_dim p.x cell_size) (groundIndex grid_dim p.y cell_size)) ∧
    filterGround p grid_dim (buildHeightMap grid_dim cell_size points)
        height_threshold cell_size
      = some (decide ((buildHeightMap grid_dim cell_size points).max
          (groundIndex grid_dim p.x cell_size) (groundIndex grid_dim p.y cell_size)
        - (buildHeightMap grid_dim cell_size points).min
          (groundIndex grid_dim p.x cell_size) (groundIndex grid_dim p.y cell_size)
        < height_threshold)) ∧
    (∀ q ∈ points,
      filterGround q grid_dim (buildHeightMap grid_dim cell_size points)
          height_threshold cell_size = none ↔
        ¬ inGrid grid_dim (groundIndex grid_dim q.x cell_size)
          (groundIndex grid_dim q.y cell_size)) := by
  obtain ⟨hiff, hext⟩ := heightMapInv_build grid_dim cell_size points
    (groundIndex grid_dim p.x cell_size) (groundIndex grid_dim p.y cell_size)
  have hpc : p ∈ groundCellPoints grid_dim cell_size points
      (groundIndex grid_dim p.x cell_size) (groundIndex grid_dim p.y cell_size) := by
    simp [groundCellPoints, hp]
  have hi := hiff.2 ⟨hin, p, hpc⟩
  obtain ⟨hl, hg⟩ := hext hi
  refine ⟨⟨hi, hl.2 ⟨p, hpc, rfl⟩, hg.2 ⟨p, hpc, rfl⟩⟩, ?_, ?_⟩
  · unfold filterGround
    simp only []
    rw [if_pos ⟨hin, hi⟩]
  · intro q hq
    exact filterGround_eq_none_iff grid_dim cell_size height_threshold points q hq

theorem groundIndex_origin_4 : groundIndex 4 0 1 = 2 := by
  have h : Int.tdiv 4 2 = 2 := rfl
  simp [groundIndex, toInt, h]

/-- Witness for C18: the origin point of a two-point cloud in a 4 x 4 grid. -/
theorem filterGround_visited_in_grid_witness :
    (⟨0, 0, 0, 1⟩ : PointXYZI) ∈ [(⟨0, 0, 0, 1⟩ : PointXYZI), ⟨9, 0, 0, 1⟩] ∧
    inGrid 4 (groundIndex 4 (⟨0, 0, 0, 1⟩ : PointXYZI).x 1)
      (groundIndex 4 (⟨0, 0, 0, 1⟩ : PointXYZI).y 1) ∧
    (((buildHeightMap 4 1 [⟨0, 0, 0, 1⟩, ⟨9, 0, 0, 1⟩]).init
        (groundIndex 4 (⟨0, 0, 0, 1⟩ : PointXYZI).x 1)
        (groundIndex 4 (⟨0, 0, 0, 1⟩ : PointXYZI).y 1) = true ∧
      (buildHeightMap 4 1 [⟨0, 0, 0, 1⟩, ⟨9, 0, 0, 1⟩]).min
        (groundIndex 4 (⟨0, 0, 0, 1⟩ : PointXYZI).x 1)
        (groundIndex 4 (⟨0, 0, 0, 1⟩ : PointXYZI).y 1) ≤ (⟨0, 0, 0, 1⟩ : PointXYZI).z ∧
      (⟨0, 0, 0, 1⟩ : PointXYZI).z ≤ (buildHeightMap 4 1 [⟨0, 0, 0, 1⟩, ⟨9, 0, 0, 1⟩]).max
        (groundIndex 4 (⟨0, 0, 0, 1⟩ : PointXYZI).x 1)
        (groundIndex 4 (⟨0, 0, 0, 1⟩ : PointXYZI).y 1)) ∧
    filterGround ⟨0, 0, 0, 1⟩ 4 (buildHeightMap 4 1 [⟨0, 0, 0, 1⟩, ⟨9, 0, 0, 1⟩]) (1 / 5) 1
      = some (decide ((buildHeightMap 4 1 [⟨0, 0, 0, 1⟩, ⟨9, 0, 0, 1⟩]).max
          (groundIndex 4 (⟨0, 0, 0, 1⟩ : PointXYZI).x 1)
          (groundIndex 4 (⟨0, 0, 0, 1⟩ : PointXYZI).y 1)
        - (buildHeightMap 4 1 [⟨0, 0, 0, 1⟩, ⟨9, 0, 0, 1⟩]).min
          (groundIndex 4 (⟨0, 0, 0, 1⟩ : PointXYZI).x 1)
          (groundIndex 4 (⟨0, 0, 0, 1⟩ : PointXYZI).y 1)
        < 1 / 5)) ∧
    (∀ q ∈ [(⟨0, 0, 0, 1⟩ : PointXYZI), ⟨9, 0, 0, 1⟩],
      filterGround q 4 (buildHeightMap 4 1 [⟨0, 0, 0, 1⟩, ⟨9, 0, 0, 1⟩]) (1 / 5) 1 = none ↔
        ¬ inGrid 4 (groundIndex 4 q.x 1) (groundIndex 4 q.y 1))) :=
  have hp : (⟨0, 0, 0, 1⟩ : PointXYZI) ∈ [(⟨0, 0, 0, 1⟩ : PointXYZI), ⟨9, 0, 0, 1⟩] := by
    simp
  have hin : inGrid 4 (groundIndex 4 (⟨0, 0, 0, 1⟩ : PointXYZI).x 1)
      (groundIndex 4 (⟨0, 0, 0, 1⟩ : PointXYZI).y 1) := by
    show inGrid 4 (groundIndex 4 0 1) (groundIndex 4 0 1)
    rw [groundIndex_origin_4]
    simp [inGrid]
  ⟨hp, hin, filterGround_visited_in_grid 1 (1 / 5) 4 [⟨0, 0, 0, 1⟩, ⟨9, 0, 0, 1⟩]
    ⟨0, 0, 0, 1⟩ hp hin⟩

/-! ## BirdViewRasterizer: empty cells, range, order -/

theorem toInt_zero : toInt 0 = 0 := by
  simp [toInt]

theorem densityByte_zero (entry : ℚ) (hn : 1 ≤ toInt entry) :
    densityByte 0 entry = some 0 := by
  have hne : toInt entry ≠ 0 := by omega
  unfold densityByte
  simp only []
  rw [if_neg hne]
  have h0 : (((0 : Int) : ℚ)) / ((toInt entry : Int) : ℚ) * 255 = 0 := by simp
  rw [h0, toInt_zero]
  rfl

theorem intensityByte_zero (intensity : ℚ) : intensityByte 0 intensity = 0 := by
  unfold intensityByte
  simp only [gt_iff_lt, lt_self_iff_false, if_false, toInt_zero]
  rfl

theorem heightByte_of_nonpos (max_height h : ℚ) (hh : h ≤ 0) :
    heightByte max_height h = 0 := by
  unfold heightByte
  rw [max_eq_right hh, mul_zero, zero_div, toInt_zero]
  rfl

theorem birdViewCell_empty (cell_size max_height grid_dim bz mei : ℚ)
    (max_points_map : Int → Int → ℚ) (points : List PointXYZI) (i j : Int)
    (hin : inGrid (gridCells grid_dim cell_size) i j)
    (hentry : 1 ≤ max_points_map i j)
    (hempty : countedPoints cell_size max_height (gridCells grid_dim cell_size) bz
      points i j = []) :
    birdViewCell cell_size max_height grid_dim bz mei max_points_map points i j
      = { height := 0, density := some 0, intensity := 0 } := by
  obtain ⟨hd, _, hh⟩ := bevInv_fill cell_size max_height (gridCells grid_dim cell_size)
    bz mei points i j hin
  rw [hempty] at hd hh
  simp only [List.length_nil, List.map_nil, List.foldl_nil, Nat.cast_zero] at hd hh
  unfold birdViewCell
  simp only []
  rw [hd, hh, densityByte_zero _ (one_le_toInt hentry), intensityByte_zero,
    heightByte_of_nonpos max_height _ (by norm_num)]

/-- C11: for `max_height > 0` and a normalization entry `≥ 1`, a cell of the raster into
which no counted point of the cloud is binned has height byte 0 (the sentinel is
clamped to 0), density byte 0 and intensity byte 0; with all entries `≥ 1` the raster of
the empty cloud is all zero. -/
theorem birdView_empty_cell (cell_size max_height grid_dim bz mei : ℚ)
    (max_points_map : Int → Int → ℚ) (points : List PointXYZI) (i j : Int)
    (_hmh : 0 < max_height) (hin : inGrid (gridCells grid_dim cell_size) i j)
    (hentry : 1 ≤ max_points_map i j)
    (hempty : countedPoints cell_size max_height (gridCells grid_dim cell_size) bz
      points i j = []) :
    birdViewCell cell_size max_height grid_dim bz mei max_points_map points i j
      = { height := 0, density := some 0, intensity := 0 } ∧
    ((∀ a b, 1 ≤ max_points_map a b) →
      birdView cell_size max_height grid_dim bz mei max_points_map []
        = List.replicate (gridCells grid_dim cell_size).toNat
            (List.replicate (gridCells grid_dim cell_size).toNat
              { height := 0, density := some 0, intensity := 0 })) := by
  refine ⟨birdViewCell_empty cell_size max_height grid_dim bz mei max_points_map points
    i j hin hentry hempty, ?_⟩
  intro hall
  have hcell : ∀ a b : Nat, a < (gridCells grid_dim cell_size).toNat →
      b < (gridCells grid_dim cell_size).toNat →
      birdViewCell cell_size max_height grid_dim bz mei max_points_map [] (a : Int) (b : Int)
        = { height := 0, density := some 0, intensity := 0 } := by
    intro a b ha hb
    apply birdViewCell_empty
    · exact ⟨by omega, by omega, by omega, by omega⟩
    · exact hall _ _
    · simp [countedPoints]
  unfold birdView
  simp only []
  apply List.ext_getElem
  · simp
  · intro a h₁ h₂
    simp only [List.getElem_map, List.getElem_range, List.getElem_replicate]
    have ha : a < (gridCells grid_dim cell_size).toNat := by simpa using h₁
    apply List.ext_getElem
    · simp
    · intro b h₃ h₄
      simp only [List.getElem_map, List.getElem_range, List.getElem_replicate]
      have hb : b < (gridCells grid_dim cell_size).toNat := by simpa using h₃
      exact hcell a b ha hb

/-- Witness for C11: cell `(0, 0)` of a 2 x 2 raster whose only point lies in cell
`(1, 1)`. -/
theorem birdView_empty_cell_witness :
    (0 : ℚ) < 10 ∧ inGrid (gridCells 2 1) 0 0 ∧
    1 ≤ (fun _ _ => 1 : Int → Int → ℚ) 0 0 ∧
    countedPoints 1 10 (gridCells 2 1) 0 [⟨0, 0, 0, 0⟩] 0 0 = [] ∧
    (birdViewCell 1 10 2 0 1 (fun _ _ => 1) [⟨0, 0, 0, 0⟩] 0 0
      = { height := 0, density := some 0, intensity := 0 } ∧
    ((∀ a b, 1 ≤ (fun _ _ => 1 : Int → Int → ℚ) a b) →
      birdView 1 10 2 0 1 (fun _ _ => 1) []
        = List.replicate (gridCells 2 1).toNat
            (List.replicate (gridCells 2 1).toNat
              { height := 0, density := some 0, intensity := 0 }))) :=
  have hin : inGrid (gridCells 2 1) 0 0 := by rw [gridCells_2_1]; simp [inGrid]
  have hentry : 1 ≤ (fun _ _ => 1 : Int → Int → ℚ) 0 0 := le_refl _
  have hempty : countedPoints 1 10 (gridCells 2 1) 0 [⟨0, 0, 0, 0⟩] 0 0 = [] := by
    simp [countedPoints, gridCells_2_1, bevIndex_origin_2]
  ⟨by norm_num, hin, hentry, hempty,
    birdView_empty_cell 1 10 2 0 1 (fun _ _ => 1) [⟨0, 0, 0, 0⟩] 0 0 (by norm_num)
      hin hentry hempty⟩

theorem foldl_max_perm (l₁ l₂ : List ℚ) (s : ℚ) (h : l₁.Perm l₂) :
    l₁.foldl Max.max s = l₂.foldl Max.max s := by
  obtain ⟨a1, a2, a3⟩ := foldl_max_spec l₁ s
  obtain ⟨b1, b2, b3⟩ := foldl_max_spec l₂ s
  apply le_antisymm
  · rcases a3 with a3 | a3
    · rw [a3]; exact b1
    · exact b2 _ (h.mem_iff.1 a3)
  · rcases b3 with b3 | b3
    · rw [b3]; exact a1
    · exact a2 _ (h.mem_iff.2 b3)

theorem birdViewCell_perm (cell_size max_height grid_dim bz mei : ℚ)
    (max_points_map : Int → Int → ℚ) (l₁ l₂ : List PointXYZI) (h : l₁.Perm l₂)
    (i j : Int) (hin : inGrid (gridCells grid_dim cell_size) i j) :
    birdViewCell cell_size max_height grid_dim bz mei max_points_map l₁ i j
      = birdViewCell cell_size max_height grid_dim bz mei max_points_map l₂ i j := by
  obtain ⟨hd₁, hs₁, hh₁⟩ := bevInv_fill cell_size max_height
    (gridCells grid_dim cell_size) bz mei l₁ i j hin
  obtain ⟨hd₂, hs₂, hh₂⟩ := bevInv_fill cell_size max_height
    (gridCells grid_dim cell_size) bz mei l₂ i j hin
  have hperm : (countedPoints cell_size max_height (gridCells grid_dim cell_size) bz
      l₁ i j).Perm (countedPoints cell_size max_height (gridCells grid_dim cell_size) bz
      l₂ i j) := by
    unfold countedPoints
    exact h.filter _
  have hd : (fillGrids cell_size max_height (gridCells grid_dim cell_size) bz mei
      l₁).density i j = (fillGrids cell_size max_height (gridCells grid_dim cell_size)
      bz mei l₂).density i j := by
    rw [hd₁, hd₂, hperm.length_eq]
  have hs : (fillGrids cell_size max_height (gridCells grid_dim cell_size) bz mei
      l₁).intensity i j = (fillGrids cell_size max_height (gridCells grid_dim cell_size)
      bz mei l₂).intensity i j := by
    rw [hs₁, hs₂]
    exact (hperm.map _).sum_eq
  have hh : (fillGrids cell_size max_height (gridCells grid_dim cell_size) bz mei
      l₁).height i j = (fillGrids cell_size max_height (gridCells grid_dim cell_size)
      bz mei l₂).height i j := by
    rw [hh₁, hh₂]
    exact foldl_max_perm _ _ _ (hperm.map _)
  unfold birdViewCell
  simp only []
  rw [hd, hs, hh]

/-- C20: for two clouds that are permutations of each other and the same parameters,
`birdView` produces the same raster (over exact arithmetic): every cell of the raster
gets the same three bytes. -/
theorem birdView_perm (cell_size max_height grid_dim bz mei : ℚ)
    (max_points_map : Int → Int → ℚ) (l₁ l₂ : List PointXYZI) (h : l₁.Perm l₂) :
    birdView cell_size max_height grid_dim bz mei max_points_map l₁
      = birdView cell_size max_height grid_dim bz mei max_points_map l₂ ∧
    ∀ i j, inGrid (gridCells grid_dim cell_size) i j →
      birdViewCell cell_size max_height grid_dim bz mei max_points_map l₁ i j
        = birdViewCell cell_size max_height grid_dim bz mei max_points_map l₂ i j := by
  refine ⟨?_, fun i j hin => birdViewCell_perm cell_size max_height grid_dim bz mei
    max_points_map l₁ l₂ h i j hin⟩
  unfold birdView
  simp only []
  apply List.map_congr_left
  intro a ha
  apply List.map_congr_left
  intro b hb
  rw [List.mem_range] at ha hb
  exact birdViewCell_perm cell_size max_height grid_dim bz mei max_points_map l₁ l₂ h _ _
    ⟨by omega, by omega, by omega, by omega⟩

/-- Witness for C20: a two-point cloud and its reversal. -/
theorem birdView_perm_witness :
    ([(⟨0, 0, 5, 1⟩ : PointXYZI), ⟨1, 0, 2, 3⟩]).Perm [⟨1, 0, 2, 3⟩, ⟨0, 0, 5, 1⟩] ∧
    (birdView 1 10 2 0 1 (fun _ _ => 1) [⟨0, 0, 5, 1⟩, ⟨1, 0, 2, 3⟩]
      = birdView 1 10 2 0 1 (fun _ _ => 1) [⟨1, 0, 2, 3⟩, ⟨0, 0, 5, 1⟩] ∧
    ∀ i j, inGrid (gridCells 2 1) i j →
      birdViewCell 1 10 2 0 1 (fun _ _ => 1) [⟨0, 0, 5, 1⟩, ⟨1, 0, 2, 3⟩] i j
        = birdViewCell 1 10 2 0 1 (fun _ _ => 1) [⟨1, 0, 2, 3⟩, ⟨0, 0, 5, 1⟩] i j) :=
  ⟨List.Perm.swap _ _ _,
    birdView_perm 1 10 2 0 1 (fun _ _ => 1) [⟨0, 0, 5, 1⟩, ⟨1, 0, 2, 3⟩]
      [⟨1, 0, 2, 3⟩, ⟨0, 0, 5, 1⟩] (List.Perm.swap _ _ _)⟩

theorem fillStep_out_of_grid (cell_size max_height : ℚ) (grid_cells : Int) (bz mei : ℚ)
    (g : BevGrids) (q : PointXYZI)
    (hout : ¬ inGrid grid_cells (bevIndex grid_cells q.x cell_size)
      (bevIndex grid_cells q.y cell_size)) :
    fillStep cell_size max_height grid_cells bz mei g q = g := by
  unfold fillStep
  simp only []
  rw [if_neg hout]
  split <;> rfl

theorem fillGrids_drop (cell_size max_height : ℚ) (grid_cells : Int) (bz mei : ℚ)
    (q : PointXYZI)
    (hout : ¬ inGrid grid_cells (bevIndex grid_cells q.x cell_size)
      (bevIndex grid_cells q.y cell_size)) (l₁ l₂ : List PointXYZI) :
    fillGrids cell_size max_height grid_cells bz mei (l₁ ++ q :: l₂)
      = fillGrids cell_size max_height grid_cells bz mei (l₁ ++ l₂) := by
  unfold fillGrids
  rw [List.foldl_append, List.foldl_append, List.foldl_cons,
    fillStep_out_of_grid cell_size max_height grid_cells bz mei _ q hout]

theorem bevIndex_strip : bevIndex 2 (3 / 2) 1 = 0 := by
  have h : Int.tdiv 2 2 = 1 := rfl
  norm_num [bevIndex, toInt, h]

/-- C16 (the code at the failing input): in a 2 x 2 raster with unit cells the point
`q = (3/2, 0, 0)` has the cell coordinate `2/2 - (3/2)/1 = -1/2`, outside `[0, 2)`; the
index computed for it is `0`, the point is counted in the edge cell `(0, 1)`, whose
density byte becomes 255 instead of 0, and the raster of the cloud `[q]` differs from
the raster of the empty cloud. -/
theorem birdView_strip_point_binned :
    ((Int.tdiv 2 2 : Int) : ℚ) - (3 / 2) / 1 = -1 / 2 ∧
    bevIndex 2 (3 / 2) 1 = 0 ∧
    (birdViewCell 1 10 2 0 1 (fun _ _ => 1) [⟨3 / 2, 0, 0, 0⟩] 0 1).density = some 255 ∧
    (birdViewCell 1 10 2 0 1 (fun _ _ => 1) [] 0 1).density = some 0 ∧
    birdView 1 10 2 0 1 (fun _ _ => 1) [⟨3 / 2, 0, 0, 0⟩]
      ≠ birdView 1 10 2 0 1 (fun _ _ => 1) [] := by
  have h22 : Int.tdiv 2 2 = 1 := rfl
  have hin : inGrid 2 0 1 := by simp [inGrid]
  have hd : (fillGrids 1 10 2 0 1 [⟨3 / 2, 0, 0, 0⟩]).density 0 1 = 1 := by
    simp [fillGrids, fillStep, bevIndex_strip, bevIndex_origin_2, hin, set2,
      BevGrids.start]
  have hd0 : (fillGrids 1 10 2 0 1 []).density 0 1 = 0 := by
    simp [fillGrids, BevGrids.start]
  have h1 : toInt 1 = 1 := by
    have := toInt_intCast 1
    simpa using this
  have h255 : toInt ((((1 : Int) : ℚ)) / (((1 : Int) : ℚ)) * 255) = 255 := by
    have := toInt_intCast 255
    norm_num at this ⊢
    exact this
  have h0 : toInt ((((0 : Int) : ℚ)) / (((1 : Int) : ℚ)) * 255) = 0 := by
    norm_num [toInt_zero]
  have hu : toUchar (Min.min 255 255) = 255 := by decide
  have hu0 : toUchar (Min.min 0 255) = 0 := by decide
  have hc1 : (birdViewCell 1 10 2 0 1 (fun _ _ => 1) [⟨3 / 2, 0, 0, 0⟩] 0 1).density
      = some 255 := by
    unfold birdViewCell densityByte
    simp only [gridCells_2_1, hd, h1, h255, hu]
    rfl
  have hc0 : (birdViewCell 1 10 2 0 1 (fun _ _ => 1) [] 0 1).density = some 0 := by
    unfold birdViewCell densityByte
    simp only [gridCells_2_1, hd0, h1, h0, hu0]
    rfl
  refine ⟨by rw [h22]; norm_num, bevIndex_strip, hc1, hc0, ?_⟩
  intro heq
  have hlt0 : ((0 : Nat) : Int) < gridCells 2 1 := by rw [gridCells_2_1]; norm_num
  have hlt1 : ((1 : Nat) : Int) < gridCells 2 1 := by rw [gridCells_2_1]; norm_num
  have e1 := birdView_cell 1 10 2 0 1 (fun _ _ => 1) [⟨3 / 2, 0, 0, 0⟩] 0 1 hlt0 hlt1
  have e0 := birdView_cell 1 10 2 0 1 (fun _ _ => 1) [] 0 1 hlt0 hlt1
  rw [heq, e0] at e1
  have e2 := congrArg Pixel.density (Option.some.inj e1)
  simp only [Nat.cast_zero, Nat.cast_one] at e2
  rw [hc0, hc1] at e2
  cases e2

/-! ## GroundGridRasterizer: theorems -/

theorem coarseIndex_spec (i s : Int) (hi : 0 ≤ i) (hs : 1 ≤ s) :
    0 ≤ coarseIndex i s ∧
    (2 * i < s → coarseIndex i s = 0) ∧
    (s ≤ 2 * i → s * (2 * coarseIndex i s + 1) ≤ 2 * i ∧
      2 * i < s * (2 * coarseIndex i s + 3)) := by
  have hsq : (0 : ℚ) < (s : ℚ) := by exact_mod_cast (by omega : 0 < s)
  have hiq : (0 : ℚ) ≤ (i : ℚ) := by exact_mod_cast hi
  by_cases h : s ≤ 2 * i
  · have hq : (s : ℚ) ≤ 2 * (i : ℚ) := by exact_mod_cast h
    have hv : (0 : ℚ) ≤ (i : ℚ) / (s : ℚ) - 1 / 2 := by
      rw [sub_nonneg, le_div_iff₀ hsq]
      linarith
    have hc : coarseIndex i s = ⌊(i : ℚ) / (s : ℚ) - 1 / 2⌋ := toInt_of_nonneg hv
    have h1 := Int.floor_le ((i : ℚ) / (s : ℚ) - 1 / 2)
    have h2 := Int.lt_floor_add_one ((i : ℚ) / (s : ℚ) - 1 / 2)
    rw [← hc] at h1 h2
    have h0 : 0 ≤ coarseIndex i s := by rw [hc]; exact Int.floor_nonneg.2 hv
    refine ⟨h0, fun hlt => absurd h (not_le.mpr hlt), fun _ => ⟨?_, ?_⟩⟩
    · have h3 : ((coarseIndex i s : Int) : ℚ) + 1 / 2 ≤ (i : ℚ) / (s : ℚ) := by linarith
      rw [le_div_iff₀ hsq] at h3
      have h4 : (s : ℚ) * (2 * ((coarseIndex i s : Int) : ℚ) + 1) ≤ 2 * (i : ℚ) := by
        linarith
      exact_mod_cast h4
    · have h3 : (i : ℚ) / (s : ℚ) < ((coarseIndex i s : Int) : ℚ) + 3 / 2 := by linarith
      rw [div_lt_iff₀ hsq] at h3
      have h4 : 2 * (i : ℚ) < (s : ℚ) * (2 * ((coarseIndex i s : Int) : ℚ) + 3) := by
        linarith
      exact_mod_cast h4
  · have hlt : 2 * i < s := not_le.mp h
    have hq : 2 * (i : ℚ) < (s : ℚ) := by exact_mod_cast hlt
    have hv : (i : ℚ) / (s : ℚ) - 1 / 2 < 0 := by
      rw [sub_neg, div_lt_iff₀ hsq]
      linarith
    have hv2 : (-1 : ℚ) < (i : ℚ) / (s : ℚ) - 1 / 2 := by
      have : (0 : ℚ) ≤ (i : ℚ) / (s : ℚ) := div_nonneg hiq (le_of_lt hsq)
      linarith
    have hc : coarseIndex i s = 0 := by
      unfold coarseIndex
      rw [toInt_of_neg hv, Int.ceil_eq_iff]
      constructor
      · push_cast; linarith
      · push_cast; linarith
    exact ⟨by rw [hc], fun _ => hc, fun hge => absurd hge h⟩

theorem coarseIndex_eq_zero_iff (i s : Int) (hi : 0 ≤ i) (hs : 1 ≤ s) :
    coarseIndex i s = 0 ↔ 2 * i < 3 * s := by
  obtain ⟨_, h1, h2⟩ := coarseIndex_spec i s hi hs
  constructor
  · intro h0
    by_cases h : s ≤ 2 * i
    · have := (h2 h).2
      rw [h0] at this
      omega
    · omega
  · intro hlt
    by_cases h : s ≤ 2 * i
    · obtain ⟨h3, _⟩ := h2 h
      have h0 := (coarseIndex_spec i s hi hs).1
      by_contra hne
      have h5 : 1 ≤ coarseIndex i s := by omega
      have h6 : s * 3 ≤ s * (2 * coarseIndex i s + 1) :=
        Int.mul_le_mul_of_nonneg_left (by omega) (by omega)
      omega
    · exact h1 (by omega)

theorem coarseIndex_eq_iff (i s k : Int) (hi : 0 ≤ i) (hs : 1 ≤ s) (hk : 1 ≤ k) :
    coarseIndex i s = k ↔ s * (2 * k + 1) ≤ 2 * i ∧ 2 * i < s * (2 * k + 3) := by
  obtain ⟨h0, h1, h2⟩ := coarseIndex_spec i s hi hs
  constructor
  · intro hc
    have hge : s ≤ 2 * i := by
      by_contra hlt
      have := h1 (by omega)
      omega
    have := h2 hge
    rw [hc] at this
    exact this
  · rintro ⟨ha, hb⟩
    have hge : s ≤ 2 * i := by
      have : s * 1 ≤ s * (2 * k + 1) := Int.mul_le_mul_of_nonneg_left (by omega) (by omega)
      omega
    obtain ⟨hc1, hc2⟩ := h2 hge
    by_contra hne
    rcases lt_or_gt_of_ne hne with hlt | hgt
    · have : s * (2 * coarseIndex i s + 3) ≤ s * (2 * k + 1) :=
        Int.mul_le_mul_of_nonneg_left (by omega) (by omega)
      omega
    · have : s * (2 * k + 3) ≤ s * (2 * coarseIndex i s + 1) :=
        Int.mul_le_mul_of_nonneg_left (by omega) (by omega)
      omega

theorem coarseIndex_lt_of_multiple (i s m : Int) (hi : 0 ≤ i) (hs : 1 ≤ s) (hm : 1 ≤ m)
    (hlt : i < s * m) : 0 ≤ coarseIndex i s ∧ coarseIndex i s < m := by
  obtain ⟨h0, h1, h2⟩ := coarseIndex_spec i s hi hs
  refine ⟨h0, ?_⟩
  by_cases h : s ≤ 2 * i
  · obtain ⟨h3, _⟩ := h2 h
    by_contra hge
    have h5 : s * (2 * m + 1) ≤ s * (2 * coarseIndex i s + 1) :=
      Int.mul_le_mul_of_nonneg_left (by omega) (by omega)
    have h6 : s * (2 * m + 1) = 2 * (s * m) + s := by ring
    omega
  · rw [h1 (by omega)]
    omega

theorem gridCells_7_1 : gridCells 7 1 = 7 := by
  simp [gridCells, toInt]

theorem coarseIndex_6_4 : coarseIndex 6 4 = 1 := by
  norm_num [coarseIndex, toInt, Int.floor_eq_iff]

/-- C12 (the code at the failing input): `grid_dim = 7`, `bv_cell_size = 1`,
`ground_cell_span = 4` give `grid_cells = 7` and `ground_cells = 1`; for the fine index
`i = 6` the upsample loop computes the coarse index `trunc(6/4 - 0.5) = 1`, which is not
below `ground_cells`, so the read `median_ground->at<float>(1, y_ground)` is outside the
1 x 1 matrix for every column `j`. -/
theorem birdGround_upsample_out_of_bounds :
    gridCells 7 1 = 7 ∧ groundCells (gridCells 7 1) 4 = 1 ∧
    (1 : Int) ≤ gridCells 7 1 ∧ (1 : Int) ≤ 4 ∧ (1 : Int) ≤ groundCells (gridCells 7 1) 4 ∧
    ((0 : Int) ≤ 6 ∧ (6 : Int) < gridCells 7 1) ∧
    coarseIndex 6 4 = 1 ∧
    ¬ (coarseIndex 6 4 < groundCells (gridCells 7 1) 4) ∧
    (∀ (bz : ℚ) (medianBlur : (Int → Int → ℚ) → Int → Int → ℚ)
      (points : List PointXYZI) (j : Int),
      birdGroundCell 1 4 7 bz medianBlur points 6 j = none) := by
  have hg : groundCells 7 4 = 1 := rfl
  refine ⟨gridCells_7_1, by rw [gridCells_7_1, hg], by rw [gridCells_7_1]; norm_num,
    by norm_num, by rw [gridCells_7_1, hg], ⟨by norm_num, by rw [gridCells_7_1]; norm_num⟩,
    coarseIndex_6_4, by rw [gridCells_7_1, hg, coarseIndex_6_4]; norm_num, ?_⟩
  intro bz medianBlur points j
  unfold birdGroundCell
  simp only [gridCells_7_1, hg, coarseIndex_6_4]
  rw [if_neg]
  rintro ⟨_, h, _⟩
  exact absurd h (by norm_num)

theorem foldl_min_spec : ∀ (l : List ℚ) (s : ℚ),
    l.foldl Min.min s ≤ s ∧ (∀ e ∈ l, l.foldl Min.min s ≤ e) ∧
      (l.foldl Min.min s = s ∨ l.foldl Min.min s ∈ l)
  | [], s => by simp
  | a :: t, s => by
    obtain ⟨h1, h2, h3⟩ := foldl_min_spec t (Min.min s a)
    rw [List.foldl_cons]
    refine ⟨le_trans h1 (min_le_left _ _), ?_, ?_⟩
    · intro e he
      rcases List.mem_cons.1 he with rfl | he
      · exact le_trans h1 (min_le_right _ _)
      · exact h2 e he
    · rcases h3 with h3 | h3
      · rcases min_choice s a with hc | hc
        · left; rw [h3, hc]
        · right; rw [h3, hc]; exact List.mem_cons_self _ _
      · right; exact List.mem_cons_of_mem _ h3

theorem groundCounted_snoc (bv_cell_size : ℚ) (ground_cell_span grid_cells : Int)
    (seen : List PointXYZI) (p : PointXYZI) (a b : Int) :
    groundCounted bv_cell_size ground_cell_span grid_cells (seen ++ [p]) a b
      = groundCounted bv_cell_size ground_cell_span grid_cells seen a b ++
        (if ¬ p.z < -3 ∧
            coarseIndex (bevIndex grid_cells p.x bv_cell_size) ground_cell_span = a ∧
            coarseIndex (bevIndex grid_cells p.y bv_cell_size) ground_cell_span = b
          then [p] else []) := by
  unfold groundCounted
  rw [List.filter_append]
  congr 1
  by_cases h : ¬ p.z < -3 ∧
      coarseIndex (bevIndex grid_cells p.x bv_cell_size) ground_cell_span = a ∧
      coarseIndex (bevIndex grid_cells p.y bv_cell_size) ground_cell_span = b
  · rw [if_pos h]
    simp only [List.filter, decide_eq_true h]
  · rw [if_neg h]
    simp only [List.filter, decide_eq_false h]

theorem groundFillStep_skip (bv_cell_size : ℚ)
    (ground_cell_span grid_cells ground_cells : Int) (bz : ℚ)
    (aux_ground : Int → Int → ℚ) (p : PointXYZI)
    (h : p.z < -3 ∨ ¬ inGrid ground_cells
      (coarseIndex (bevIndex grid_cells p.x bv_cell_size) ground_cell_span)
      (coarseIndex (bevIndex grid_cells p.y bv_cell_size) ground_cell_span)) :
    groundFillStep bv_cell_size ground_cell_span grid_cells ground_cells bz aux_ground p
      = aux_ground := by
  unfold groundFillStep
  by_cases hz : p.z < -3
  · rw [if_pos hz]
  · rw [if_neg hz]
    rcases h with h | h
    · exact absurd h hz
    · rw [if_neg h]

theorem groundFill_inv_step (bv_cell_size : ℚ)
    (ground_cell_span grid_cells ground_cells : Int) (bz : ℚ)
    (seen : List PointXYZI) (aux_ground : Int → Int → ℚ) (p : PointXYZI)
    (h : ∀ a b, inGrid ground_cells a b → aux_ground a b =
      ((groundCounted bv_cell_size ground_cell_span grid_cells seen a b).map
        (fun q => q.z + bz)).foldl Min.min (99999 / 10)) :
    ∀ a b, inGrid ground_cells a b →
      groundFillStep bv_cell_size ground_cell_span grid_cells ground_cells bz
          aux_ground p a b =
        ((groundCounted bv_cell_size ground_cell_span grid_cells (seen ++ [p]) a b).map
          (fun q => q.z + bz)).foldl Min.min (99999 / 10) := by
  intro a b hab
  rw [groundCounted_snoc]
  by_cases hc : ¬ p.z < -3 ∧
      coarseIndex (bevIndex grid_cells p.x bv_cell_size) ground_cell_span = a ∧
      coarseIndex (bevIndex grid_cells p.y bv_cell_size) ground_cell_span = b
  · obtain ⟨hz, hx, hy⟩ := hc
    rw [if_pos ⟨hz, hx, hy⟩]
    unfold groundFillStep
    rw [if_neg hz]
    rw [hx, hy, if_pos hab]
    simp only [set2, and_self, if_true, List.map_append, List.map_cons, List.map_nil,
      List.foldl_append, List.foldl_cons, List.foldl_nil]
    rw [h a b hab]
  · rw [if_neg hc, List.append_nil, ← h a b hab]
    unfold groundFillStep
    by_cases hz : p.z < -3
    · rw [if_pos hz]
    · rw [if_neg hz]
      by_cases hin : inGrid ground_cells
          (coarseIndex (bevIndex grid_cells p.x bv_cell_size) ground_cell_span)
          (coarseIndex (bevIndex grid_cells p.y bv_cell_size) ground_cell_span)
      · rw [if_pos hin]
        have hne : ¬ (a = coarseIndex (bevIndex grid_cells p.x bv_cell_size)
              ground_cell_span ∧
            b = coarseIndex (bevIndex grid_cells p.y bv_cell_size) ground_cell_span) :=
          fun hxy => hc ⟨hz, hxy.1.symm, hxy.2.symm⟩
        simp only [set2, hne, if_false]
      · rw [if_neg hin]

theorem groundFill_inv_foldl (bv_cell_size : ℚ)
    (ground_cell_span grid_cells ground_cells : Int) (bz : ℚ) :
    ∀ (rest seen : List PointXYZI) (aux_ground : Int → Int → ℚ),
      (∀ a b, inGrid ground_cells a b → aux_ground a b =
        ((groundCounted bv_cell_size ground_cell_span grid_cells seen a b).map
          (fun q => q.z + bz)).foldl Min.min (99999 / 10)) →
      ∀ a b, inGrid ground_cells a b →
        rest.foldl (groundFillStep bv_cell_size ground_cell_span grid_cells
            ground_cells bz) aux_ground a b =
          ((groundCounted bv_cell_size ground_cell_span grid_cells (seen ++ rest) a b).map
            (fun q => q.z + bz)).foldl Min.min (99999 / 10)
  | [], seen, aux_ground, h => by simpa using h
  | p :: rest, seen, aux_ground, h => by
    have ih := groundFill_inv_foldl bv_cell_size ground_cell_span grid_cells ground_cells
      bz rest (seen ++ [p]) _
      (groundFill_inv_step bv_cell_size ground_cell_span grid_cells ground_cells bz
        seen aux_ground p h)
    simpa [List.append_assoc] using ih

theorem groundFill_eq (bv_cell_size : ℚ)
    (ground_cell_span grid_cells ground_cells : Int) (bz : ℚ) (points : List PointXYZI)
    (a b : Int) (hab : inGrid ground_cells a b) :
    groundFill bv_cell_size ground_cell_span grid_cells ground_cells bz points a b =
      ((groundCounted bv_cell_size ground_cell_span grid_cells points a b).map
        (fun q => q.z + bz)).foldl Min.min (99999 / 10) := by
  have h := groundFill_inv_foldl bv_cell_size ground_cell_span grid_cells ground_cells bz
    points [] (fun _ _ => 99999 / 10) (by
      intro a b _
      simp [groundCounted]) a b hab
  simpa [groundFill] using h

/-- C13: after the fill pass of `birdGround` every coarse cell `(a, b)` of the grid holds
the minimum of the sentinel `9999.9` and the vehicle-frame elevations `point.z + bz` of
exactly the points with `point.z ≥ -3` whose fine cell maps to `(a, b)` under
`trunc(fine / ground_cell_span - 0.5)`; a point with `point.z < -3` or with a coarse
index outside `[0, ground_cells)` changes no cell. -/
theorem birdGround_fill_min (bv_cell_size : ℚ)
    (ground_cell_span grid_cells ground_cells : Int) (bz : ℚ) (points : List PointXYZI)
    (a b : Int) (hab : inGrid ground_cells a b) :
    IsLeast (insert (99999 / 10 : ℚ)
        {e | ∃ q ∈ groundCounted bv_cell_size ground_cell_span grid_cells points a b,
          q.z + bz = e})
      (groundFill bv_cell_size ground_cell_span grid_cells ground_cells bz points a b) ∧
    (∀ q, q ∈ groundCounted bv_cell_size ground_cell_span grid_cells points a b ↔
      q ∈ points ∧ -3 ≤ q.z ∧
        coarseIndex (bevIndex grid_cells q.x bv_cell_size) ground_cell_span = a ∧
        coarseIndex (bevIndex grid_cells q.y bv_cell_size) ground_cell_span = b) ∧
    (∀ p : PointXYZI,
      (p.z < -3 ∨ ¬ inGrid ground_cells
        (coarseIndex (bevIndex grid_cells p.x bv_cell_size) ground_cell_span)
        (coarseIndex (bevIndex grid_cells p.y bv_cell_size) ground_cell_span)) →
      (∀ aux_ground : Int → Int → ℚ,
        groundFillStep bv_cell_size ground_cell_span grid_cells ground_cells bz
          aux_ground p = aux_ground) ∧
      ∀ l₁ l₂ : List PointXYZI,
        groundFill bv_cell_size ground_cell_span grid_cells ground_cells bz
            (l₁ ++ p :: l₂)
          = groundFill bv_cell_size ground_cell_span grid_cells ground_cells bz
            (l₁ ++ l₂)) := by
  refine ⟨?_, ?_, ?_⟩
  · rw [groundFill_eq bv_cell_size ground_cell_span grid_cells ground_cells bz points
      a b hab]
    obtain ⟨h1, h2, h3⟩ := foldl_min_spec
      ((groundCounted bv_cell_size ground_cell_span grid_cells points a b).map
        (fun q => q.z + bz)) (99999 / 10)
    constructor
    · rcases h3 with h3 | h3
      · rw [h3]; exact Set.mem_insert _ _
      · obtain ⟨q, hq, hqe⟩ := List.mem_map.1 h3
        exact Set.mem_insert_of_mem _ ⟨q, hq, hqe⟩
    · intro e he
      rcases Set.mem_insert_iff.1 he with rfl | ⟨q, hq, rfl⟩
      · exact h1
      · exact h2 _ (List.mem_map.2 ⟨q, hq, rfl⟩)
  · intro q
    simp only [groundCounted, List.mem_filter, decide_eq_true_eq, not_lt]
  · intro p hp
    refine ⟨fun aux_ground => groundFillStep_skip bv_cell_size ground_cell_span
      grid_cells ground_cells bz aux_ground p hp, ?_⟩
    intro l₁ l₂
    unfold groundFill
    rw [List.foldl_append, List.foldl_append, List.foldl_cons,
      groundFillStep_skip bv_cell_size ground_cell_span grid_cells ground_cells bz _ p hp]

/-- Witness for C13: coarse cell `(0, 0)` of a 2 x 2 coarse grid and a one-point cloud. -/
theorem birdGround_fill_min_witness :
    inGrid 2 0 0 ∧
    (IsLeast (insert (99999 / 10 : ℚ)
        {e | ∃ q ∈ groundCounted 1 2 4 [⟨0, 0, 1, 0⟩] 0 0, q.z + 2 = e})
      (groundFill 1 2 4 2 2 [⟨0, 0, 1, 0⟩] 0 0) ∧
    (∀ q, q ∈ groundCounted 1 2 4 [⟨0, 0, 1, 0⟩] 0 0 ↔
      q ∈ [(⟨0, 0, 1, 0⟩ : PointXYZI)] ∧ -3 ≤ q.z ∧
        coarseIndex (bevIndex 4 q.x 1) 2 = 0 ∧ coarseIndex (bevIndex 4 q.y 1) 2 = 0) ∧
    (∀ p : PointXYZI,
      (p.z < -3 ∨ ¬ inGrid 2 (coarseIndex (bevIndex 4 p.x 1) 2)
        (coarseIndex (bevIndex 4 p.y 1) 2)) →
      (∀ aux_ground : Int → Int → ℚ, groundFillStep 1 2 4 2 2 aux_ground p = aux_ground) ∧
      ∀ l₁ l₂ : List PointXYZI,
        groundFill 1 2 4 2 2 (l₁ ++ p :: l₂) = groundFill 1 2 4 2 2 (l₁ ++ l₂))) :=
  have hab : inGrid 2 0 0 := by simp [inGrid]
  ⟨hab, birdGround_fill_min 1 2 4 2 2 [⟨0, 0, 1, 0⟩] 0 0 hab⟩

theorem mem_cellList (n i j : Int) : (i, j) ∈ cellList n ↔ inGrid n i j := by
  unfold cellList inGrid
  simp only [List.mem_flatMap, List.mem_map, List.mem_range, Prod.mk.injEq]
  constructor
  · rintro ⟨a, ha, b, hb, rfl, rfl⟩
    omega
  · rintro ⟨h0, h1, h2, h3⟩
    exact ⟨i.toNat, by omega, j.toNat, by omega, by omega, by omega⟩

theorem patchStep_apply (ground_cell_span grid_cells : Int) (bv_cell_size : ℚ)
    (aux_ground : Int → Int → ℚ) (c : Int × Int) (i j : Int) :
    patchStep ground_cell_span grid_cells bv_cell_size aux_ground c i j
      = if (i = c.1 ∧ j = c.2) ∧ |aux_ground i j| > 1 / 5 ∧
            nearOrigin ground_cell_span grid_cells bv_cell_size i ∧
            nearOrigin ground_cell_span grid_cells bv_cell_size j
        then 0 else aux_ground i j := by
  by_cases hq : i = c.1 ∧ j = c.2
  · obtain ⟨hi, hj⟩ := hq
    subst hi
    subst hj
    by_cases hcond : |aux_ground c.1 c.2| > 1 / 5 ∧
        nearOrigin ground_cell_span grid_cells bv_cell_size c.1 ∧
        nearOrigin ground_cell_span grid_cells bv_cell_size c.2
    · have h1 : patchStep ground_cell_span grid_cells bv_cell_size aux_ground c
          = set2 aux_ground c.1 c.2 0 := if_pos hcond
      have h2 : (if (c.1 = c.1 ∧ c.2 = c.2) ∧ |aux_ground c.1 c.2| > 1 / 5 ∧
            nearOrigin ground_cell_span grid_cells bv_cell_size c.1 ∧
            nearOrigin ground_cell_span grid_cells bv_cell_size c.2
          then (0 : ℚ) else aux_ground c.1 c.2) = 0 := if_pos ⟨⟨rfl, rfl⟩, hcond⟩
      rw [h1, h2]
      simp [set2]
    · have h1 : patchStep ground_cell_span grid_cells bv_cell_size aux_ground c
          = aux_ground := if_neg hcond
      have h2 : (if (c.1 = c.1 ∧ c.2 = c.2) ∧ |aux_ground c.1 c.2| > 1 / 5 ∧
            nearOrigin ground_cell_span grid_cells bv_cell_size c.1 ∧
            nearOrigin ground_cell_span grid_cells bv_cell_size c.2
          then (0 : ℚ) else aux_ground c.1 c.2) = aux_ground c.1 c.2 :=
        if_neg (fun h => hcond h.2)
      rw [h1, h2]
  · have h2 : (if (i = c.1 ∧ j = c.2) ∧ |aux_ground i j| > 1 / 5 ∧
          nearOrigin ground_cell_span grid_cells bv_cell_size i ∧
          nearOrigin ground_cell_span grid_cells bv_cell_size j
        then (0 : ℚ) else aux_ground i j) = aux_ground i j := if_neg (fun h => hq h.1)
    rw [h2]
    by_cases hcond : |aux_ground c.1 c.2| > 1 / 5 ∧
        nearOrigin ground_cell_span grid_cells bv_cell_size c.1 ∧
        nearOrigin ground_cell_span grid_cells bv_cell_size c.2
    · have h1 : patchStep ground_cell_span grid_cells bv_cell_size aux_ground c
          = set2 aux_ground c.1 c.2 0 := if_pos hcond
      rw [h1]
      simp [set2, hq]
    · have h1 : patchStep ground_cell_span grid_cells bv_cell_size aux_ground c
          = aux_ground := if_neg hcond
      rw [h1]

theorem patch_foldl (ground_cell_span grid_cells : Int) (bv_cell_size : ℚ) :
    ∀ (cells : List (Int × Int)) (aux_ground : Int → Int → ℚ) (i j : Int),
      cells.foldl (patchStep ground_cell_span grid_cells bv_cell_size) aux_ground i j
        = if (i, j) ∈ cells ∧ |aux_ground i j| > 1 / 5 ∧
              nearOrigin ground_cell_span grid_cells bv_cell_size i ∧
              nearOrigin ground_cell_span grid_cells bv_cell_size j
          then 0 else aux_ground i j
  | [], aux_ground, i, j => by simp
  | c :: cells, aux_ground, i, j => by
    rw [List.foldl_cons, patch_foldl ground_cell_span grid_cells bv_cell_size cells,
      patchStep_apply]
    have hzero : ¬ (|(0 : ℚ)| > 1 / 5) := by norm_num
    by_cases hcond : |aux_ground i j| > 1 / 5 ∧
        nearOrigin ground_cell_span grid_cells bv_cell_size i ∧
        nearOrigin ground_cell_span grid_cells bv_cell_size j
    · by_cases hq : i = c.1 ∧ j = c.2
      · have hc : (i, j) = c := Prod.ext hq.1 hq.2
        rw [if_pos (⟨hq, hcond⟩ : (i = c.1 ∧ j = c.2) ∧ _)]
        exact (if_neg (fun h => hzero h.2.1)).trans
          (if_pos ⟨hc ▸ List.mem_cons_self _ _, hcond⟩).symm
      · have hne : (i, j) ≠ c := fun h => hq ⟨congrArg Prod.fst h, congrArg Prod.snd h⟩
        rw [if_neg (fun h => hq h.1 : ¬ ((i = c.1 ∧ j = c.2) ∧ _))]
        by_cases hp : (i, j) ∈ cells
        · exact (if_pos ⟨hp, hcond⟩).trans
            (if_pos ⟨List.mem_cons_of_mem _ hp, hcond⟩).symm
        · exact (if_neg (fun h => hp h.1)).trans
            (if_neg (fun h => (List.mem_cons.1 h.1).elim hne hp)).symm
    · rw [if_neg (fun h => hcond h.2 : ¬ ((i = c.1 ∧ j = c.2) ∧ _))]
      exact (if_neg (fun h => hcond h.2)).trans (if_neg (fun h => hcond h.2)).symm

theorem patchBlindSpot_apply (ground_cell_span grid_cells ground_cells : Int)
    (bv_cell_size : ℚ) (aux_ground : Int → Int → ℚ) (i j : Int) :
    patchBlindSpot ground_cell_span grid_cells ground_cells bv_cell_size aux_ground i j
      = if inGrid ground_cells i j ∧ |aux_ground i j| > 1 / 5 ∧
            nearOrigin ground_cell_span grid_cells bv_cell_size i ∧
            nearOrigin ground_cell_span grid_cells bv_cell_size j
        then 0 else aux_ground i j := by
  unfold patchBlindSpot
  rw [patch_foldl]
  simp only [mem_cellList]

/-- C14: the blind-spot patch of `birdGround` sets to 0 exactly the coarse cells `(i, j)`
of the grid with `|(i*span - grid_cells/2) * bv_cell_size| < 5`,
`|(j*span - grid_cells/2) * bv_cell_size| < 5` and accumulated value `v` with
`|v| > 0.2`; every other cell is left unchanged; after the step a coarse cell within
5 m of the origin holds a value of absolute value at most `0.2`. -/
theorem birdGround_patch (ground_cell_span grid_cells ground_cells : Int)
    (bv_cell_size : ℚ) (aux_ground : Int → Int → ℚ) (i j : Int)
    (hin : inGrid ground_cells i j) :
    ((nearOrigin ground_cell_span grid_cells bv_cell_size i ∧
        nearOrigin ground_cell_span grid_cells bv_cell_size j ∧
        |aux_ground i j| > 1 / 5) →
      patchBlindSpot ground_cell_span grid_cells ground_cells bv_cell_size aux_ground i j
        = 0) ∧
    (¬ (nearOrigin ground_cell_span grid_cells bv_cell_size i ∧
        nearOrigin ground_cell_span grid_cells bv_cell_size j ∧
        |aux_ground i j| > 1 / 5) →
      patchBlindSpot ground_cell_span grid_cells ground_cells bv_cell_size aux_ground i j
        = aux_ground i j) ∧
    ((nearOrigin ground_cell_span grid_cells bv_cell_size i ∧
        nearOrigin ground_cell_span grid_cells bv_cell_size j) →
      |patchBlindSpot ground_cell_span grid_cells ground_cells bv_cell_size aux_ground i j|
        ≤ 1 / 5) ∧
    (∀ a b, ¬ inGrid ground_cells a b →
      patchBlindSpot ground_cell_span grid_cells ground_cells bv_cell_size aux_ground a b
        = aux_ground a b) := by
  refine ⟨?_, ?_, ?_, ?_⟩
  · rintro ⟨hi, hj, hv⟩
    rw [patchBlindSpot_apply, if_pos ⟨hin, hv, hi, hj⟩]
  · intro hn
    rw [patchBlindSpot_apply, if_neg (fun h => hn ⟨h.2.2.1, h.2.2.2, h.2.1⟩)]
  · rintro ⟨hi, hj⟩
    rw [patchBlindSpot_apply]
    by_cases hv : |aux_ground i j| > 1 / 5
    · rw [if_pos ⟨hin, hv, hi, hj⟩]
      norm_num
    · rw [if_neg (fun h => hv h.2.1)]
      exact not_lt.mp hv
  · intro a b hout
    rw [patchBlindSpot_apply, if_neg (fun h => hout h.1)]

/-- Witness for C14: cell `(0, 0)` of a 2 x 2 coarse grid that still holds the sentinel. -/
theorem birdGround_patch_witness :
    inGrid 2 0 0 ∧
    (((nearOrigin 1 2 1 0 ∧ nearOrigin 1 2 1 0 ∧
        |(fun _ _ => 99999 / 10 : Int → Int → ℚ) 0 0| > 1 / 5) →
      patchBlindSpot 1 2 2 1 (fun _ _ => 99999 / 10) 0 0 = 0) ∧
    (¬ (nearOrigin 1 2 1 0 ∧ nearOrigin 1 2 1 0 ∧
        |(fun _ _ => 99999 / 10 : Int → Int → ℚ) 0 0| > 1 / 5) →
      patchBlindSpot 1 2 2 1 (fun _ _ => 99999 / 10) 0 0
        = (fun _ _ => 99999 / 10 : Int → Int → ℚ) 0 0) ∧
    ((nearOrigin 1 2 1 0 ∧ nearOrigin 1 2 1 0) →
      |patchBlindSpot 1 2 2 1 (fun _ _ => 99999 / 10) 0 0| ≤ 1 / 5) ∧
    (∀ a b, ¬ inGrid 2 a b →
      patchBlindSpot 1 2 2 1 (fun _ _ => 99999 / 10) a b
        = (fun _ _ => 99999 / 10 : Int → Int → ℚ) a b)) :=
  have hin : inGrid 2 0 0 := by simp [inGrid]
  ⟨hin, birdGround_patch 1 2 2 1 (fun _ _ => 99999 / 10) 0 0 hin⟩

/-- C15 (counterexample): with `ground_cell_span = 2` and `grid_cells = 4` (two coarse
cells per axis) the fine indices 0, 1 and 2 all map to coarse index 0 and only the fine
index 3 maps to coarse index 1, so the coarse indices are not the images of two fine
indices each; with `ground_cell_span = 1` and `grid_cells = 2` both fine indices map to
coarse index 0. -/
theorem birdGround_upsample_counterexample :
    (4 : Int) = 2 * 2 ∧ groundCells 4 2 = 2 ∧
    coarseIndex 0 2 = 0 ∧ coarseIndex 1 2 = 0 ∧ coarseIndex 2 2 = 0 ∧
    coarseIndex 3 2 = 1 ∧
    groundCells 2 1 = 2 ∧ coarseIndex 0 1 = 0 ∧ coarseIndex 1 1 = 0 := by
  refine ⟨by norm_num, rfl, ?_, ?_, ?_, ?_, rfl, ?_, ?_⟩
  · norm_num [coarseIndex, toInt]
  · norm_num [coarseIndex, toInt]
  · norm_num [coarseIndex, toInt, Int.floor_eq_iff]
  · norm_num [coarseIndex, toInt, Int.floor_eq_iff]
  · norm_num [coarseIndex, toInt]
  · norm_num [coarseIndex, toInt, Int.floor_eq_iff]

/-- C15 (amended): for `ground_cell_span = s ≥ 1` and `grid_cells = s * m` with `m ≥ 1`
(so `ground_cells = m`), the upsample index map `i ↦ trunc(i/s - 0.5)` sends every fine
index of `[0, grid_cells)` to a coarse index of `[0, ground_cells)`; a coarse index
`k ≥ 1` is the image of exactly the fine indices `i` with
`s*k + ceil(s/2) ≤ i < s*k + ceil(s/2) + s` (`s` consecutive indices, shifted by half a
block), and the coarse index 0 of the fine indices `0 ≤ i < s + ceil(s/2)`; the value
written for a fine cell is the median-filtered coarse grid at the coarse indices of its
row and column. -/
theorem birdGround_upsample_blocks (s m : Int) (hs : 1 ≤ s) (hm : 1 ≤ m) :
    groundCells (s * m) s = m ∧
    (∀ i, 0 ≤ i → i < s * m →
      0 ≤ coarseIndex i s ∧ coarseIndex i s < groundCells (s * m) s) ∧
    (∀ i k, 0 ≤ i → 1 ≤ k →
      (coarseIndex i s = k ↔
        s * k + (s + 1) / 2 ≤ i ∧ i < s * k + (s + 1) / 2 + s)) ∧
    (∀ i, 0 ≤ i → (coarseIndex i s = 0 ↔ i < s + (s + 1) / 2)) ∧
    (∀ (bv_cell_size grid_dim bz : ℚ) (medianBlur : (Int → Int → ℚ) → Int → Int → ℚ)
      (points : List PointXYZI) (i j : Int),
      gridCells grid_dim bv_cell_size = s * m →
      0 ≤ i → i < s * m → 0 ≤ j → j < s * m →
      birdGroundCell bv_cell_size s grid_dim bz medianBlur points i j
        = some (medianBlur
            (patchBlindSpot s (s * m) m bv_cell_size
              (groundFill bv_cell_size s (s * m) m bz points))
            (coarseIndex i s) (coarseIndex j s))) := by
  have hg : groundCells (s * m) s = m := by
    unfold groundCells
    exact Int.mul_tdiv_cancel_left m (by omega)
  refine ⟨hg, ?_, ?_, ?_, ?_⟩
  · intro i hi hlt
    rw [hg]
    exact coarseIndex_lt_of_multiple i s m hi hs hm hlt
  · intro i k hi hk
    rw [coarseIndex_eq_iff i s k hi hs hk]
    have e1 : s * (2 * k + 1) = 2 * (s * k) + s := by ring
    have e2 : s * (2 * k + 3) = 2 * (s * k) + 3 * s := by ring
    rw [e1, e2]
    generalize s * k = t
    omega
  · intro i hi
    rw [coarseIndex_eq_zero_iff i s hi hs]
    omega
  · intro bv_cell_size grid_dim bz medianBlur points i j hgc hi hil hj hjl
    obtain ⟨hi0, hi1⟩ := coarseIndex_lt_of_multiple i s m hi hs hm hil
    obtain ⟨hj0, hj1⟩ := coarseIndex_lt_of_multiple j s m hj hs hm hjl
    unfold birdGroundCell
    simp only [hgc, hg]
    rw [if_pos ⟨hi0, hi1, hj0, hj1⟩]

/-- Witness for C15 (amended): `ground_cell_span = 2`, `grid_cells = 2 * 2`. -/
theorem birdGround_upsample_blocks_witness :
    (1 : Int) ≤ 2 ∧
    (groundCells (2 * 2) 2 = 2 ∧
    (∀ i, 0 ≤ i → i < 2 * 2 →
      0 ≤ coarseIndex i 2 ∧ coarseIndex i 2 < groundCells (2 * 2) 2) ∧
    (∀ i k, 0 ≤ i → 1 ≤ k →
      (coarseIndex i 2 = k ↔
        2 * k + (2 + 1) / 2 ≤ i ∧ i < 2 * k + (2 + 1) / 2 + 2)) ∧
    (∀ i, 0 ≤ i → (coarseIndex i 2 = 0 ↔ i < 2 + (2 + 1) / 2)) ∧
    (∀ (bv_cell_size grid_dim bz : ℚ) (medianBlur : (Int → Int → ℚ) → Int → Int → ℚ)
      (points : List PointXYZI) (i j : Int),
      gridCells grid_dim bv_cell_size = 2 * 2 →
      0 ≤ i → i < 2 * 2 → 0 ≤ j → j < 2 * 2 →
      birdGroundCell bv_cell_size 2 grid_dim bz medianBlur points i j
        = some (medianBlur
            (patchBlindSpot 2 (2 * 2) 2 bv_cell_size
              (groundFill bv_cell_size 2 (2 * 2) 2 bz points))
            (coarseIndex i 2) (coarseIndex j 2)))) :=
  ⟨by norm_num, birdGround_upsample_blocks 2 2 (by norm_num) (by norm_num)⟩

end LidarBev
